import Mathlib

/-!
# Verification of `ALCoreferenceResolver.forward`

Shallow embedding of `src/discrete_al_coref_module/models/coref.py`
(class `ALCoreferenceResolver`, method `forward`).  One batch element is a
`Doc`; a batch is a list of them (every tensor operation in the modelled code
acts elementwise along the batch dimension, and the final loss `.sum()` adds
the per-element contributions).

Machine floats are modelled exactly: learned scores are rationals, the
log-domain loss computation lives in `XR` (an `Option ℝ` whose `none` plays
the role of IEEE `-inf = log 0`), and `int64` label arithmetic wraps two's
complement.  The external scoring networks (mention feed-forward scorer,
antecedent pair scorer) are opaque function parameters, exactly as the spec
declares them out of scope.
-/

namespace ALCoref

/-- Learned scoring networks (external collaborators, opaque): `mentionScore`
is the mention feed-forward scorer plus final linear layer; `pairScore` is the
antecedent feed-forward scorer plus linear layer applied to the pair embedding
built from span embedding, antecedent embedding, their product and the
embedded bucketed distance — so it is a function of the two embeddings and the
offset. -/
structure Scorers (α : Type) where
  mentionScore : α → ℚ
  pairScore : α → α → ℕ → ℚ

/-- Configuration surface of the model that the modelled code reads:
`self._spans_per_word` and `self._max_antecedents`. -/
structure Config where
  spansPerWord : ℚ
  maxAntecedents : ℕ

/-- One batch element.  `spans` are inclusive (start, end) token index pairs,
with negative sentinel entries (`SpanField` padding is (-1, -1)).  `spanEmb`
are the externally produced span embeddings (`span_embeddings` of line 178).
`spanLabels` is the optional `span_labels` tensor row: gold cluster id per
candidate span, or -1 for spans in no cluster.  `docLen` is the padded
document token length `text_embeddings.size(1)`. -/
structure Doc (α : Type) where
  docLen : ℕ
  spans : List (Int × Int)
  spanEmb : List α
  spanLabels : Option (List Int)

/-- Line 159: `span_mask = (spans[:, :, 0] >= 0)` — computed from the
original, pre-clamp span start indices. -/
def span_mask (spans : List (Int × Int)) : List Bool :=
  spans.map (fun p => decide (0 ≤ p.1))

/-- Line 168: `spans = F.relu(spans.float()).long()` — negative sentinel
entries are clamped to 0.  `F.relu` is out of place: this is a fresh value,
the caller's tensor is not mutated. -/
def clampSpans (spans : List (Int × Int)) : List (Int × Int) :=
  spans.map (fun p => (max p.1 0, max p.2 0))

/-- Line 181: `num_spans_to_keep = int(math.floor(self._spans_per_word *
document_length))`. -/
def num_spans_to_keep (cfg : Config) (documentLength : ℕ) : ℕ :=
  (⌊cfg.spansPerWord * (documentLength : ℚ)⌋).toNat

/-- Mention scores for every candidate span (`span_mention_scores`,
line 184: the pruner invoked with `get_scores = True` runs the scorer and
returns one scalar per candidate). -/
def span_mention_scores {α : Type} (sc : Scorers α) (spanEmb : List α) : List ℚ :=
  spanEmb.map sc.mentionScore

/-- Modelled from the spec: `discrete_al_coref_module/models/pruner.py` (the
`Pruner` built in `__init__` and called at lines 192-197) is not under `src/`.
Spec §4.1: mask invalid candidates, select the K highest-scoring valid
candidates with K clamped to the number of valid candidates (producing fewer
than K kept spans when necessary), break score ties by ascending original
index, and re-sort the selected set ascending by original index before
returning.  The result is the list of kept original candidate indices
(`top_span_indices`); every kept span is valid, so the kept validity mask
(`top_span_mask`) is all-true. -/
def prunerTopIndices (scores : List ℚ) (mask : List Bool) (k : ℕ) : List ℕ :=
  let valid := (List.range scores.length).filter (fun i => mask.getD i false)
  let byScore := valid.mergeSort (fun i j =>
    decide (scores.getD j 0 < scores.getD i 0 ∨
      (scores.getD i 0 = scores.getD j 0 ∧ i ≤ j)))
  (byScore.take k).mergeSort (fun i j => decide (i ≤ j))

/-- Number of valid (non-padding) candidate spans. -/
def numValidSpans (spans : List (Int × Int)) : ℕ :=
  (span_mask spans).count true

/-- `top_span_indices` of the fresh path (lines 192-197): kept original
candidate indices in document order. -/
def top_span_indices {α : Type} (cfg : Config) (sc : Scorers α) (doc : Doc α) : List ℕ :=
  prunerTopIndices (span_mention_scores sc doc.spanEmb) (span_mask doc.spans)
    (num_spans_to_keep cfg doc.docLen)

/-- `top_span_mention_scores`: kept mention scores, gathered at the kept
indices. -/
def keptScores (scores : List ℚ) (topIdx : List ℕ) : List ℚ :=
  topIdx.map (fun i => scores.getD i 0)

/-- `top_span_embeddings`: kept span embeddings, gathered at the kept
indices (what `util.batched_index_select(span_embeddings, ...)` produces for
one batch element). -/
def keptEmbeddings {α : Type} [Inhabited α] (emb : List α) (topIdx : List ℕ) : List α :=
  topIdx.map (fun i => emb.getD i default)

/-- `util.batched_index_select` for one batch element and one value per span:
gather a list at the kept indices. -/
def indexSelect (values : List Int) (topIdx : List ℕ) : List Int :=
  topIdx.map (fun i => values.getD i 0)

/-- Line 221: `top_spans = util.batched_index_select(spans, ...)` — the
(start, end) pairs of the kept spans, gathered from whatever `spans` value is
live on the current path (clamped on the fresh path, the caller's raw tensor
on the precomputed-pruning path). -/
def selectSpans (spans : List (Int × Int)) (topIdx : List ℕ) : List (Int × Int) :=
  topIdx.map (fun i => spans.getD i (0, 0))

/-! ## Antecedent window (`_generate_valid_antecedents`, line 246)

Inherited from allennlp's `CoreferenceResolver._generate_valid_antecedents`
(external library, described by spec §4.2): `target_indices = arange(K)`,
`valid_antecedent_offsets = arange(1, W+1)`,
`raw = target_indices - offsets`, `log_mask = (raw >= 0).float().log()`,
`indices = F.relu(raw.float()).long()`. -/

/-- Window offset of slot `j` (0-indexed slot over `W` columns): distance
`j + 1` backwards. -/
def antecedentOffset (j : ℕ) : ℕ := j + 1

/-- `raw_antecedent_indices[i][j] = i - (j+1)` before clamping. -/
def rawAntecedentIndex (i j : ℕ) : Int := (i : Int) - ((j : Int) + 1)

/-- Slot validity: `raw >= 0` (log-mask 0 when true, `-inf` when false). -/
def validAntecedentBool (i j : ℕ) : Bool := decide (0 ≤ rawAntecedentIndex i j)

/-- `valid_antecedent_indices[i][j] = relu(i - (j+1))`; natural subtraction
implements the clamp at 0. -/
def antecedentIndexAt (i j : ℕ) : ℕ := i - (j + 1)

/-- The `(K, W)` antecedent index matrix. -/
def valid_antecedent_indices (K W : ℕ) : List (List ℕ) :=
  (List.range K).map (fun i => (List.range W).map (fun j => antecedentIndexAt i j))

/-- The `(K, W)` antecedent validity matrix (`true` ↔ log-mask 0, `false` ↔
log-mask `-inf`). -/
def valid_antecedent_log_mask (K W : ℕ) : List (List Bool) :=
  (List.range K).map (fun i => (List.range W).map (fun j => validAntecedentBool i j))

/-! ## Coreference scores (`_compute_coreference_scores`, line 262)

Inherited from allennlp (spec §4.4): `antecedent_scores = pairScore +
top_span_mention_scores + antecedent_mention_scores + log_mask`, then a dummy
all-zero slot 0 is concatenated in front.  Scores are `WithBot ℚ`: `⊥` models
the IEEE `-inf` contributed by the log-mask (absorbing under addition, below
every finite score, `exp ⊥ = 0`). -/

/-- Raw antecedent score of kept span `i` against window slot `j`, given the
antecedent index matrix and validity matrix live on the current path. -/
def antecedentScore {α : Type} [Inhabited α] (sc : Scorers α) (topEmb : List α)
    (topScores : List ℚ) (antIdx : List (List ℕ)) (logMask : List (List Bool))
    (i j : ℕ) : WithBot ℚ :=
  let a := (antIdx.getD i []).getD j 0
  if (logMask.getD i []).getD j true then
    ((topScores.getD i 0 + topScores.getD a 0 +
      sc.pairScore (topEmb.getD i default) (topEmb.getD a default)
        (antecedentOffset j) : ℚ) : WithBot ℚ)
  else ⊥

/-- One row of `coreference_scores`: slot 0 is the fixed dummy score 0
("no antecedent"), slots 1..W are the masked antecedent scores. -/
def coreferenceRow {α : Type} [Inhabited α] (sc : Scorers α) (topEmb : List α)
    (topScores : List ℚ) (antIdx : List (List ℕ)) (logMask : List (List Bool))
    (W i : ℕ) : List (WithBot ℚ) :=
  (0 : WithBot ℚ) ::
    (List.range W).map (fun j => antecedentScore sc topEmb topScores antIdx logMask i j)

/-- The full `(K, 1+W)` score matrix for one batch element. -/
def coreference_scores {α : Type} [Inhabited α] (sc : Scorers α) (topEmb : List α)
    (topScores : List ℚ) (antIdx : List (List ℕ)) (logMask : List (List Bool))
    (K W : ℕ) : List (List (WithBot ℚ)) :=
  (List.range K).map (fun i => coreferenceRow sc topEmb topScores antIdx logMask W i)

/-! ## Predicted antecedents (lines 271-275)

`_, predicted_antecedents = coreference_scores.max(2)`; torch's `max` along a
dimension returns the index of the first maximal value, modelled as a left
fold that replaces the running best only on strict increase; then
`predicted_antecedents -= 1`. -/

/-- Fold step of `tensor.max(dim)`: scan the remaining entries with running
(best index, best value), updating only on a strictly larger value. -/
def torchMaxAux : List (WithBot ℚ) → ℕ → ℕ × WithBot ℚ → ℕ × WithBot ℚ
  | [], _, best => best
  | x :: xs, i, best => torchMaxAux xs (i + 1) (if best.2 < x then (i, x) else best)

/-- Index returned by `tensor.max(-1)` on one row (first maximal entry). -/
def torchArgmax : List (WithBot ℚ) → ℕ
  | [] => 0
  | x :: xs => (torchMaxAux xs 1 (0, x)).1

/-- Lines 271-275: per-row argmax over the (1+W) slots, minus one, so slot 0
becomes -1 ("no antecedent") and slot j becomes the window-slot index j-1. -/
def predicted_antecedents (rows : List (List (WithBot ℚ))) : List Int :=
  rows.map (fun r => (torchArgmax r : Int) - 1)

/-! ## Log-domain reals

`XR` is `Option ℝ` with `none` playing IEEE `-inf` (= `log 0`).  `+inf` and
NaN never arise on the modelled paths (proved where it matters): scores are
finite or `-inf`, every softmax denominator is strictly positive because the
dummy slot is finite, and every `logsumexp` row has a finite entry because the
dummy gold indicator guarantees one. -/

/-- Log-domain extended real: `none` is `-inf`. -/
def XR : Type := Option ℝ

/-- Finite embedding. -/
def XR.fin (x : ℝ) : XR := some x

/-- `-inf`. -/
def XR.ninf : XR := none

/-- Addition; `-inf` absorbs. -/
def XR.add : XR → XR → XR
  | some a, some b => some (a + b)
  | _, _ => none

/-- Subtraction of a finite real. -/
def XR.subR : XR → ℝ → XR
  | some a, b => some (a - b)
  | none, _ => none

/-- `exp` with `exp (-inf) = 0`. -/
noncomputable def XR.exp : XR → ℝ
  | some a => Real.exp a
  | none => 0

/-- Binary max with `-inf` as the bottom element. -/
def XR.vmax : XR → XR → XR
  | some a, some b => some (max a b)
  | some a, none => some a
  | none, y => y

/-- IEEE-style log of a nonnegative float: `log 0 = -inf`.  (Negative
arguments would be NaN; the modelled code only takes logs of masks,
indicators and positive sums.) -/
noncomputable def xlog (x : ℝ) : XR := if x ≤ 0 then XR.ninf else XR.fin (Real.log x)

/-- Score matrix entry as a log-domain real. -/
noncomputable def scoreXR : WithBot ℚ → XR
  | ⊥ => XR.ninf
  | (q : ℚ) => XR.fin (q : ℝ)

/-- The float literal `1e-45` of `masked_log_softmax`. -/
noncomputable def maskEps : ℝ := 1 / 10 ^ 45

/-- `allennlp.nn.util.masked_log_softmax` (line 330) on one row of the score
matrix, with the row's single broadcast mask bit (`top_span_mask` has shape
(batch, K, 1)): `vector + (mask + 1e-45).log()` followed by
`log_softmax = v - log (sum (exp v))`. -/
noncomputable def maskedLogSoftmaxRow (row : List (WithBot ℚ)) (m : Bool) : List XR :=
  let shifted := row.map (fun x => (scoreXR x).add (xlog ((if m then 1 else 0) + maskEps)))
  shifted.map (fun x => x.subR (Real.log ((shifted.map XR.exp).sum)))

/-- `allennlp.nn.util.logsumexp` (line 332) on one row: max-shifted
`max + log (sum (exp (x - max)))`.  When every entry is `-inf` the real code
produces NaN; that case is unreachable (the dummy gold indicator slot always
has a finite log-probability) and the model returns `-inf` there. -/
noncomputable def utilLogsumexp (l : List XR) : XR :=
  match l.foldl XR.vmax XR.ninf with
  | some m => XR.fin (m + Real.log ((l.map (fun x => XR.exp (x.subR m))).sum))
  | none => XR.ninf

/-- Sum of log-domain values (`tensor.sum()`), `-inf` absorbing. -/
def sumXR (l : List XR) : XR := l.foldl XR.add (XR.fin 0)

/-- Negation of a log-domain value (the leading minus of line 332).  All
summands are finite on reachable states, so the `-inf ↦ -inf` default of
`Option.map` is never exercised. -/
def negXR (x : XR) : XR := x.map (fun a => -a)

/-! ## Gold antecedent labels (lines 306-319)

`pruned_gold_labels` gathers `span_labels` at the kept indices;
`antecedent_labels` gathers those through the antecedent index matrix and adds
`valid_antecedent_log_mask.long()` — the float log-mask cast to int64, i.e. 0
for a valid slot and `(-inf).long() = INT64_MIN` for an invalid one, with
int64 two's-complement wrap-around.  `_compute_antecedent_gold_labels` is
inherited from allennlp (spec §4.5 steps 2-3). -/

/-- `INT64_MIN`, the value of `float(-inf)` cast to a PyTorch long tensor. -/
def int64Min : Int := -(2 ^ 63)

/-- Two's-complement wrap of int64 arithmetic (PyTorch long tensors). -/
def wrap64 (x : Int) : Int := (x + 2 ^ 63) % 2 ^ 64 - 2 ^ 63

/-- Lines 312-314: the (wrapped int64) gold label attached to window slot
`(i, j)` after adding the cast log-mask.  A read beyond the kept rows (which
arises only in the clamp regime, where the real tensors would refuse the
gather/broadcast) takes the `span_labels` padding value -1. -/
def antecedent_labels (pruned : List Int) (antIdx : List (List ℕ))
    (antMask : List (List Bool)) (i j : ℕ) : Int :=
  wrap64 (pruned.getD ((antIdx.getD i []).getD j 0) (-1) +
    (if (antMask.getD i []).getD j true then 0 else int64Min))

/-- `_compute_antecedent_gold_labels`: `pairwise_labels[i][j] =
(target == antecedent) * (target >= 0)`; a target read beyond the kept rows
takes the `span_labels` padding value -1 (see `antecedent_labels`). -/
def pairwiseGold (pruned : List Int) (antIdx : List (List ℕ))
    (antMask : List (List Bool)) (i j : ℕ) : Bool :=
  decide (pruned.getD i (-1) = antecedent_labels pruned antIdx antMask i j) &&
    decide (0 ≤ pruned.getD i (-1))

/-- One row of the gold indicator: the dummy slot
`(1 - pairwise_labels).prod(-1)` (true iff every pairwise slot is false)
followed by the pairwise slots. -/
def goldRow (pruned : List Int) (antIdx : List (List ℕ))
    (antMask : List (List Bool)) (i : ℕ) : List Bool :=
  let pw := (List.range (antIdx.getD i []).length).map
    (fun j => pairwiseGold pruned antIdx antMask i j)
  (!(pw.any (fun b => b))) :: pw

/-- Lines 318-319: the `(K, 1+W)` boolean gold-antecedent indicator. -/
def gold_antecedent_labels (pruned : List Int) (antIdx : List (List ℕ))
    (antMask : List (List Bool)) : List (List Bool) :=
  (List.range antIdx.length).map (fun i => goldRow pruned antIdx antMask i)

/-! ## Loss (lines 330-332) -/

/-- Line 331: `coreference_log_probs + gold_antecedent_labels.log()` on one
row (`log 1 = 0` on indicator-true slots, `log 0 = -inf` on the rest). -/
noncomputable def correctRowLogProbs (row : List (WithBot ℚ)) (m : Bool)
    (gold : List Bool) : List XR :=
  (maskedLogSoftmaxRow row m).zipWith
    (fun lp g => lp.add (xlog (if g then 1 else 0))) gold

/-- Lines 330-332: `-util.logsumexp(correct_antecedent_log_probs).sum()` for
one batch element. -/
noncomputable def negative_marginal_log_likelihood
    (rows : List (List (WithBot ℚ))) (topMask : List Bool)
    (gold : List (List Bool)) : XR :=
  negXR (sumXR ((List.range rows.length).map (fun i =>
    utilLogsumexp
      (correctRowLogProbs (rows.getD i []) (topMask.getD i false) (gold.getD i [])))))

/-! ## The three entry points of `forward` -/

/-- The output dictionary of one `forward` call on one batch element
(metadata pass-through of line 340 is omitted: it is outside every claim). -/
structure OutputDict : Type where
  top_spans : List (Int × Int)
  antecedent_indices : List (List ℕ)
  predicted_antecedents : List Int
  coreference_scores : Option (List (List (WithBot ℚ)))
  top_span_indices : Option (List ℕ)
  loss : Option XR

/-- The `top_spans_info` argument of the precomputed-pruning entry point
(lines 207-217), with the keys the code reads. -/
structure TopSpansInfo (α : Type) : Type where
  mention_scores : List ℚ
  top_scores : List ℚ
  span_indices : List ℕ
  flat_top_indices : List ℕ
  top_mask : List Bool
  span_embeddings : List α
  text_mask : List Bool

/-- A value stored in the string-keyed `coref_scores_info` / `ret_values`
dictionaries. -/
inductive InfoVal : Type
  | indsPair (inds flat : List ℕ)
  | boolMask (m : List Bool)
  | antMask (m : List (List Bool))
  | outDict (d : OutputDict)

/-- A Python dictionary with string keys, as an association list. -/
def InfoDict : Type := List (String × InfoVal)

/-- Python dictionary key lookup. -/
def lookupKey (d : InfoDict) (k : String) : Option InfoVal :=
  (d.find? (fun p => p.1 == k)).map Prod.snd

/-- Result of one `forward` call on one batch element: an output dictionary,
the mention-scores state of `return_mention_scores` (lines 188-190), the
resumable state `ret_values` of `return_coref_scores` (lines 283-285), or an
uncaught Python `KeyError` naming the missing key (a type-mismatched value at
an existing key — a `TypeError` in Python — is folded into the same
constructor; no modelled scenario produces one). -/
inductive ForwardResult (α : Type) : Type
  | output (d : OutputDict)
  | mentionState (numToKeep : ℕ) (mention_scores : List ℚ) (mask : List Bool)
      (embeds : List α) (text_mask : List Bool)
  | scoresState (r : InfoDict)
  | keyError (key : String)

/-- Mid-pipeline state once kept spans are fixed: the live values of the
Python locals `spans`, `top_span_indices`, `flat_top_span_indices`,
`top_span_mention_scores`, `top_span_embeddings`, `top_span_mask` and
`num_spans_to_keep` at line 219. -/
structure MidState (α : Type) : Type where
  spansUsed : List (Int × Int)
  topIdx : List ℕ
  flatIdx : List ℕ
  topScores : List ℚ
  topEmb : List α
  topMask : List Bool
  nKept : ℕ

/-- Fresh-path pruning (lines 150-206).  The pruner output follows the
spec-modelled `prunerTopIndices`: all kept spans are valid and there are
`min K #valid` of them.  `nKept` is the live value of the Python local
`num_spans_to_keep`: it is assigned once at line 181 (the unclamped floor)
and never reassigned on this path, so lines 226 and 246 use the unclamped
value even when the pruner clamps — in that regime the window and score
matrices have more rows than there are kept spans (out-of-shape reads, which
the real tensors would reject, resolve to list defaults here).  For one
batch element `util.flatten_and_batch_shift_indices` is the identity on the
index list. -/
def freshMid {α : Type} [Inhabited α] (cfg : Config) (sc : Scorers α)
    (doc : Doc α) : MidState α :=
  let scores := span_mention_scores sc doc.spanEmb
  let topIdx := top_span_indices cfg sc doc
  { spansUsed := clampSpans doc.spans
    topIdx := topIdx
    flatIdx := topIdx
    topScores := keptScores scores topIdx
    topEmb := keptEmbeddings doc.spanEmb topIdx
    topMask := topIdx.map (fun _ => true)
    nKept := num_spans_to_keep cfg doc.docLen }

/-- Precomputed-pruning path (lines 207-217): every value is taken from
`top_spans_info`; `top_span_embeddings` is regathered from the supplied span
embeddings via the supplied flat indices; `num_spans_to_keep =
top_scores.size(1)`; the caller's `spans` tensor is used unclamped. -/
def infoMid {α : Type} [Inhabited α] (doc : Doc α) (info : TopSpansInfo α) :
    MidState α :=
  { spansUsed := doc.spans
    topIdx := info.span_indices
    flatIdx := info.flat_top_indices
    topScores := info.top_scores
    topEmb := info.flat_top_indices.map (fun i => info.span_embeddings.getD i default)
    topMask := info.top_mask
    nKept := info.top_scores.length }

/-- Scoring stage shared by the fresh and precomputed-pruning paths
(lines 219-279). -/
structure ScoredState : Type where
  top_spans : List (Int × Int)
  W : ℕ
  antIdx : List (List ℕ)
  antMask : List (List Bool)
  scores : List (List (WithBot ℚ))
  preds : List Int

/-- Lines 219-275: gather `top_spans`, clamp the window width
(`max_antecedents = min(self._max_antecedents, num_spans_to_keep)`,
line 226), build the window, score, and decode predicted antecedents. -/
def scoreStage {α : Type} [Inhabited α] (cfg : Config) (sc : Scorers α)
    (st : MidState α) : ScoredState :=
  let W := min cfg.maxAntecedents st.nKept
  let antIdx := valid_antecedent_indices st.nKept W
  let antMask := valid_antecedent_log_mask st.nKept W
  let rows := coreference_scores sc st.topEmb st.topScores antIdx antMask st.nKept W
  { top_spans := selectSpans st.spansUsed st.flatIdx
    W := W
    antIdx := antIdx
    antMask := antMask
    scores := rows
    preds := predicted_antecedents rows }

/-- Loss block (lines 306-337), shared by every path that reaches it. -/
noncomputable def lossStage (labels : List Int) (flatIdx : List ℕ)
    (antIdx : List (List ℕ)) (antMask : List (List Bool))
    (rows : List (List (WithBot ℚ))) (topMask : List Bool) : XR :=
  let pruned := indexSelect labels flatIdx
  let gold := gold_antecedent_labels pruned antIdx antMask
  negative_marginal_log_likelihood rows topMask gold

/-- Tail shared by every output-producing path (lines 302-341): attach
`top_span_indices` when `get_scores`, and the loss when `span_labels` is
supplied. -/
noncomputable def finishOutput {α : Type} (doc : Doc α) (get_scores : Bool)
    (topIdx flatIdx : List ℕ) (antIdx : List (List ℕ))
    (antMask : List (List Bool)) (rows : List (List (WithBot ℚ)))
    (topMask : List Bool) (od : OutputDict) : ForwardResult α :=
  let od1 := if get_scores then { od with top_span_indices := some topIdx } else od
  match doc.spanLabels with
  | some labels =>
      .output { od1 with
        loss := some (lossStage labels flatIdx antIdx antMask rows topMask) }
  | none => .output od1

/-- Lines 219-341 after the kept spans are fixed: score, predict, either
return the resumable `ret_values` state (lines 282-285, keyed exactly as the
code keys it) or finish the output dictionary. -/
noncomputable def forwardAfterMid {α : Type} [Inhabited α] (cfg : Config)
    (sc : Scorers α) (doc : Doc α) (get_scores return_coref_scores : Bool)
    (st : MidState α) : ForwardResult α :=
  let s := scoreStage cfg sc st
  let base : OutputDict :=
    { top_spans := s.top_spans
      antecedent_indices := s.antIdx
      predicted_antecedents := s.preds
      coreference_scores :=
        if get_scores || return_coref_scores then some s.scores else none
      top_span_indices := none
      loss := none }
  if return_coref_scores then
    .scoresState [("output_dict", .outDict base),
                  ("top_span_inds", .indsPair st.topIdx st.flatIdx),
                  ("top_span_mask", .boolMask st.topMask),
                  ("ant_mask", .antMask s.antMask)]
  else
    finishOutput doc get_scores st.topIdx st.flatIdx s.antIdx s.antMask
      s.scores st.topMask base

/-- Precomputed-scoring path (lines 286-301): string-keyed lookups in
`coref_scores_info`, in the order the code performs them, then decoding and
the shared tail. -/
noncomputable def forwardFromScores {α : Type} (doc : Doc α)
    (get_scores : Bool) (csi : InfoDict) : ForwardResult α :=
  match lookupKey csi "top_span_inds" with
  | some (.indsPair topIdx flatIdx) =>
    match lookupKey csi "top_span_mask" with
    | some (.boolMask topMask) =>
      match lookupKey csi "valid_antecedent_log_mask" with
      | some (.antMask antMask) =>
        match lookupKey csi "output_dict" with
        | some (.outDict od) =>
          match od.coreference_scores with
          | some rows =>
            let preds := predicted_antecedents rows
            let od2 := { od with predicted_antecedents := preds }
            finishOutput doc get_scores topIdx flatIdx od.antecedent_indices
              antMask rows topMask od2
          | none => .keyError "coreference_scores"
        | _ => .keyError "output_dict"
      | _ => .keyError "valid_antecedent_log_mask"
    | _ => .keyError "top_span_mask"
  | _ => .keyError "top_span_inds"

/-- The full `forward` control flow on one batch element (lines 147-341).
`coref_scores_info = []` models an absent (or empty, hence falsy) dictionary,
matching `if not coref_scores_info`; likewise `top_spans_info = none`. -/
noncomputable def forward {α : Type} [Inhabited α] (cfg : Config)
    (sc : Scorers α) (doc : Doc α) (get_scores : Bool)
    (top_spans_info : Option (TopSpansInfo α)) (coref_scores_info : InfoDict)
    (return_mention_scores return_coref_scores : Bool) : ForwardResult α :=
  if coref_scores_info.isEmpty then
    match top_spans_info with
    | none =>
      if return_mention_scores then
        .mentionState (num_spans_to_keep cfg doc.docLen)
          (span_mention_scores sc doc.spanEmb) (span_mask doc.spans)
          doc.spanEmb (List.replicate doc.docLen true)
      else
        forwardAfterMid cfg sc doc get_scores return_coref_scores
          (freshMid cfg sc doc)
    | some info =>
        forwardAfterMid cfg sc doc get_scores return_coref_scores
          (infoMid doc info)
  else
    forwardFromScores doc get_scores coref_scores_info

/-! ## Spec-side definitions

These follow the spec's wording (not the code) and are compared with the
embedded computations in the theorems below. -/

/-- Maximum of a score row. -/
def rowMax (l : List (WithBot ℚ)) : WithBot ℚ := l.foldl max ⊥

/-- `s` is the argmax of the row with ties resolved by lowest slot index:
slot `s` attains the maximum and every earlier slot is strictly below it
(spec §4.4: "argmax over slots, with ties resolved by lowest slot index"). -/
def firstArgmax (l : List (WithBot ℚ)) (s : ℕ) : Prop :=
  l.getD s ⊥ = rowMax l ∧ ∀ t < s, l.getD t ⊥ < rowMax l

/-- Well-formed candidate span list (the `SpanField` contract): a candidate
is either a real span with `0 ≤ start ≤ end` or the padding sentinel with
both indices negative. -/
def wfSpans (spans : List (Int × Int)) : Prop :=
  ∀ p ∈ spans, (0 ≤ p.1 ∧ p.1 ≤ p.2) ∨ (p.1 < 0 ∧ p.2 < 0)

/-- Gold cluster ids are the none-sentinel -1 or a sane nonnegative id (far
below `2^62`, so that int64 log-mask arithmetic cannot collide with a real
id). -/
def labelsBounded (labels : List Int) : Prop :=
  ∀ l ∈ labels, -1 ≤ l ∧ l < 2 ^ 62

/-- Softmax probability of slot `j` of a score row, in plain probability
space: `exp s_j / Σ exp s_k`, with `exp (-inf) = 0`. -/
noncomputable def softmaxProb (row : List (WithBot ℚ)) (j : ℕ) : ℝ :=
  XR.exp (scoreXR (row.getD j ⊥)) / ((row.map (fun x => XR.exp (scoreXR x))).sum)

/-- Spec §4.5 step 5 for one kept span: the marginal gold log-likelihood,
`log` of the total softmax probability mass on the indicator-true slots. -/
noncomputable def marginalGoldLogProb (row : List (WithBot ℚ)) (g : List Bool) : ℝ :=
  Real.log ((((List.range row.length).filter (fun j => g.getD j false)).map
    (softmaxProb row)).sum)

/-- The clean per-batch-element sum of marginal gold log-likelihoods over the
kept spans (one summand per kept span, as the spec words it), computed on the
fresh path's score matrix and gold indicator. -/
noncomputable def cleanDocSum {α : Type} [Inhabited α] (cfg : Config)
    (sc : Scorers α) (doc : Doc α) (labels : List Int) : ℝ :=
  let st := freshMid cfg sc doc
  let s := scoreStage cfg sc st
  let gold := gold_antecedent_labels (indexSelect labels st.flatIdx) s.antIdx s.antMask
  ((List.range st.topIdx.length).map (fun i =>
    marginalGoldLogProb (s.scores.getD i []) (gold.getD i []))).sum

/-- The pruning state exactly as the fresh path computes it, packaged as a
`top_spans_info` argument (C4's premise). -/
def freshTopSpansInfo {α : Type} [Inhabited α] (cfg : Config) (sc : Scorers α)
    (doc : Doc α) : TopSpansInfo α :=
  let scores := span_mention_scores sc doc.spanEmb
  let topIdx := top_span_indices cfg sc doc
  { mention_scores := scores
    top_scores := keptScores scores topIdx
    span_indices := topIdx
    flat_top_indices := topIdx
    top_mask := topIdx.map (fun _ => true)
    span_embeddings := doc.spanEmb
    text_mask := List.replicate doc.docLen true }

/-- The output dictionary the fresh path produces (the value `forward`
returns when no staged state is supplied and no resumable-state flag is set),
written out explicitly. -/
noncomputable def freshOutput {α : Type} [Inhabited α] (cfg : Config)
    (sc : Scorers α) (doc : Doc α) (get_scores : Bool) : OutputDict :=
  let st := freshMid cfg sc doc
  let s := scoreStage cfg sc st
  { top_spans := s.top_spans
    antecedent_indices := s.antIdx
    predicted_antecedents := s.preds
    coreference_scores := if get_scores then some s.scores else none
    top_span_indices := if get_scores then some st.topIdx else none
    loss := doc.spanLabels.map (fun labels =>
      lossStage labels st.flatIdx s.antIdx s.antMask s.scores st.topMask) }

/-- The output dictionary the precomputed-pruning path produces (the value
`forward` returns when `top_spans_info` is supplied and no resumable-state
flag is set), written out explicitly. -/
noncomputable def infoOutput {α : Type} [Inhabited α] (cfg : Config)
    (sc : Scorers α) (doc : Doc α) (info : TopSpansInfo α)
    (get_scores : Bool) : OutputDict :=
  let st := infoMid doc info
  let s := scoreStage cfg sc st
  { top_spans := s.top_spans
    antecedent_indices := s.antIdx
    predicted_antecedents := s.preds
    coreference_scores := if get_scores then some s.scores else none
    top_span_indices := if get_scores then some st.topIdx else none
    loss := doc.spanLabels.map (fun labels =>
      lossStage labels st.flatIdx s.antIdx s.antMask s.scores st.topMask) }

/-- Concrete scorers over trivial embeddings, used to instantiate theorems on
concrete inputs. -/
def witSc : Scorers Unit :=
  { mentionScore := fun _ => 0
    pairScore := fun _ _ _ => 0 }

/-- A concrete empty document (no tokens, no candidate spans). -/
def witEmptyDoc : Doc Unit :=
  { docLen := 0
    spans := []
    spanEmb := []
    spanLabels := none }

/-- A concrete configuration. -/
def witCfg : Config :=
  { spansPerWord := 1
    maxAntecedents := 1 }

/-- The resumable state `ret_values` that `forward` returns on the empty
document with `return_coref_scores = True`: note the mask is stored under
the key `ant_mask`. -/
def witRV : InfoDict :=
  [("output_dict", InfoVal.outDict
      { top_spans := []
        antecedent_indices := []
        predicted_antecedents := []
        coreference_scores := some []
        top_span_indices := none
        loss := none }),
   ("top_span_inds", InfoVal.indsPair [] []),
   ("top_span_mask", InfoVal.boolMask []),
   ("ant_mask", InfoVal.antMask [])]

/-- A concrete 3-token document with three width-1 candidate spans plus one
padding span, used to instantiate theorems on concrete inputs
(embeddings are the candidate indices).  With `witCfg` the floor K equals
the number of valid candidates, so the pruner does not clamp. -/
def witDoc : Doc ℕ :=
  { docLen := 3
    spans := [(0, 0), (1, 1), (2, 2), (-1, -1)]
    spanEmb := [0, 1, 2, 3]
    spanLabels := some [1, -1, 1, -1] }

/-- Scorers over ℕ embeddings used with `witDoc`. -/
def witScN : Scorers ℕ :=
  { mentionScore := fun e => (e : ℚ)
    pairScore := fun _ _ _ => 1 }

/-- A 2-token document with one valid candidate span and one padding span:
with `witCfg` the floor K = 2 exceeds the single valid candidate, so the
pruner clamps while the Python local `num_spans_to_keep` keeps the unclamped
floor. -/
def clampDoc : Doc ℕ :=
  { docLen := 2
    spans := [(0, 0), (-1, -1)]
    spanEmb := [0, 1]
    spanLabels := some [0, -1] }

/-- All-zero scorers over ℕ embeddings used with `clampDoc`. -/
def clampSc : Scorers ℕ :=
  { mentionScore := fun _ => 0
    pairScore := fun _ _ _ => 0 }

/-- A configuration with a 2-wide antecedent window, used with `clampDoc`. -/
def clampCfg2 : Config :=
  { spansPerWord := 1
    maxAntecedents := 2 }

/-! ## Helper lemmas -/

lemma getD_range_map {β : Type _} (f : ℕ → β) (d : β) {K i : ℕ} (h : i < K) :
    ((List.range K).map f).getD i d = f i := by
  simp [List.getD_eq_getElem?_getD, List.getElem?_range, h]

lemma length_range_map {β : Type _} (f : ℕ → β) (K : ℕ) :
    ((List.range K).map f).length = K := by simp

lemma init_le_foldl_max : ∀ (l : List (WithBot ℚ)) (b : WithBot ℚ),
    b ≤ l.foldl max b
  | [], _ => le_refl _
  | x :: xs, b => le_trans (le_max_left b x) (init_le_foldl_max xs (max b x))

lemma getD_le_foldl_max : ∀ (l : List (WithBot ℚ)) (b : WithBot ℚ) (i : ℕ),
    i < l.length → l.getD i ⊥ ≤ l.foldl max b
  | x :: xs, b, 0, _ =>
      le_trans (le_max_right b x) (init_le_foldl_max xs (max b x))
  | x :: xs, b, i + 1, h => by
      have hh := getD_le_foldl_max xs (max b x) i (by simpa using h)
      simpa using hh

lemma getD_le_rowMax (l : List (WithBot ℚ)) (i : ℕ) (h : i < l.length) :
    l.getD i ⊥ ≤ rowMax l := getD_le_foldl_max l ⊥ i h

/-- Full characterisation of the `tensor.max(dim)` fold: the result value is
the running maximum, and the result index is either the initial best (when
nothing beat it) or the position of the first entry strictly above everything
before it. -/
lemma torchMaxAux_spec : ∀ (xs : List (WithBot ℚ)) (k bi : ℕ) (bv : WithBot ℚ),
    ((torchMaxAux xs k (bi, bv)).2 = xs.foldl max bv) ∧
    (((torchMaxAux xs k (bi, bv)).1 = bi ∧ (torchMaxAux xs k (bi, bv)).2 = bv) ∨
      (∃ m, m < xs.length ∧ (torchMaxAux xs k (bi, bv)).1 = k + m ∧
        (torchMaxAux xs k (bi, bv)).2 = xs.getD m ⊥ ∧
        bv < (torchMaxAux xs k (bi, bv)).2 ∧
        ∀ t < m, xs.getD t ⊥ < (torchMaxAux xs k (bi, bv)).2))
  | [], k, bi, bv => by simp [torchMaxAux]
  | x :: xs, k, bi, bv => by
    by_cases hlt : bv < x
    · have ih := torchMaxAux_spec xs (k + 1) k x
      have hred : torchMaxAux (x :: xs) k (bi, bv) = torchMaxAux xs (k + 1) (k, x) := by
        simp [torchMaxAux, hlt]
      rw [hred]
      constructor
      · rw [ih.1]
        simp [List.foldl_cons, max_eq_right (le_of_lt hlt)]
      · rcases ih.2 with ⟨h1, h2⟩ | ⟨m, hm, h1, h2, h3, h4⟩
        · right
          exact ⟨0, by simp, by simpa using h1, by simpa using h2,
            by rw [h2]; exact hlt, by omega⟩
        · right
          refine ⟨m + 1, by simpa using Nat.succ_lt_succ hm, by omega, by simpa using h2,
            lt_trans hlt h3, ?_⟩
          intro t ht
          cases t with
          | zero => simpa using h3
          | succ s => simpa using h4 s (by omega)
    · have ih := torchMaxAux_spec xs (k + 1) bi bv
      have hred : torchMaxAux (x :: xs) k (bi, bv) = torchMaxAux xs (k + 1) (bi, bv) := by
        simp [torchMaxAux, hlt]
      rw [hred]
      constructor
      · rw [ih.1]
        simp [List.foldl_cons, max_eq_left (not_lt.mp hlt)]
      · rcases ih.2 with ⟨h1, h2⟩ | ⟨m, hm, h1, h2, h3, h4⟩
        · exact Or.inl ⟨h1, h2⟩
        · right
          refine ⟨m + 1, by simpa using Nat.succ_lt_succ hm, by omega, by simpa using h2,
            h3, ?_⟩
          intro t ht
          cases t with
          | zero => exact lt_of_le_of_lt (by simpa using not_lt.mp hlt) h3
          | succ s => simpa using h4 s (by omega)

/-- `torchArgmax` returns an in-range slot and it is the first argmax. -/
lemma torchArgmax_spec (x : WithBot ℚ) (xs : List (WithBot ℚ)) :
    torchArgmax (x :: xs) < (x :: xs).length ∧
    firstArgmax (x :: xs) (torchArgmax (x :: xs)) := by
  have spec := torchMaxAux_spec xs 1 0 x
  have hrow : rowMax (x :: xs) = (torchMaxAux xs 1 (0, x)).2 := by
    rw [spec.1, rowMax]
    simp [List.foldl_cons, max_eq_right (show (⊥ : WithBot ℚ) ≤ x from bot_le)]
  rcases spec.2 with ⟨h1, h2⟩ | ⟨m, hm, h1, h2, h3, h4⟩
  · constructor
    · simp [torchArgmax, h1]
    · constructor
      · rw [torchArgmax, h1, hrow, h2]
        simp
      · intro t ht
        rw [torchArgmax, h1] at ht
        omega
  · constructor
    · simp [torchArgmax, h1]
      omega
    · constructor
      · rw [torchArgmax, h1, hrow, h2, Nat.add_comm 1 m]
        simp
      · intro t ht
        rw [torchArgmax, h1] at ht
        rw [hrow]
        cases t with
        | zero => simpa using h3
        | succ s =>
            have : s < m := by omega
            simpa using h4 s this

lemma getD_map_lt {β γ : Type _} (f : β → γ) (l : List β) (d : γ) (d' : β)
    {i : ℕ} (h : i < l.length) : (l.map f).getD i d = f (l.getD i d') := by
  simp [List.getD_eq_getElem?_getD, List.getElem?_eq_getElem h,
    List.getElem?_eq_getElem (show i < (l.map f).length by simpa using h)]

/-- The fresh path of `forward` always returns the explicit output
dictionary `freshOutput`. -/
lemma forward_fresh_eq {α : Type} [Inhabited α] (cfg : Config) (sc : Scorers α)
    (doc : Doc α) (get_scores : Bool) :
    forward cfg sc doc get_scores none [] false false =
      .output (freshOutput cfg sc doc get_scores) := by
  cases hl : doc.spanLabels <;> cases get_scores <;>
    simp [forward, forwardAfterMid, finishOutput, freshOutput, hl]

/-- The precomputed-pruning path of `forward` always returns the explicit
output dictionary `infoOutput`. -/
lemma forward_info_eq {α : Type} [Inhabited α] (cfg : Config) (sc : Scorers α)
    (doc : Doc α) (info : TopSpansInfo α) (get_scores : Bool) :
    forward cfg sc doc get_scores (some info) [] false false =
      .output (infoOutput cfg sc doc info get_scores) := by
  cases hl : doc.spanLabels <;> cases get_scores <;>
    simp [forward, forwardAfterMid, finishOutput, infoOutput, hl]

lemma filter_range_getD_length : ∀ (mask : List Bool),
    ((List.range mask.length).filter (fun i => mask.getD i false)).length =
      mask.count true
  | [] => by simp
  | b :: rest => by
    have ih := filter_range_getD_length rest
    have hcomp : ((fun i => (b :: rest).getD i false) ∘ Nat.succ) =
        (fun i => rest.getD i false) := by
      funext i
      simp [List.getD_cons_succ]
    rw [List.length_cons, List.range_succ_eq_map, List.filter_cons,
      List.filter_map, hcomp]
    simp only [List.getD_eq_getElem?_getD] at ih
    cases b <;> simp [ih, List.count_cons]

/-- Spec-modelled pruner count: the kept-span count is K clamped to the
number of valid candidates. -/
lemma prunerTopIndices_length (scores : List ℚ) (mask : List Bool) (k : ℕ)
    (h : scores.length = mask.length) :
    (prunerTopIndices scores mask k).length = min k (mask.count true) := by
  rw [prunerTopIndices]
  simp only [List.length_mergeSort, List.length_take]
  rw [h, filter_range_getD_length]

/-- Every kept index is in range and names a valid candidate. -/
lemma prunerTopIndices_mem (scores : List ℚ) (mask : List Bool) (k : ℕ)
    {i : ℕ} (h : i ∈ prunerTopIndices scores mask k) :
    i < scores.length ∧ mask.getD i false = true := by
  rw [prunerTopIndices] at h
  rw [List.mem_mergeSort] at h
  have h2 := List.mem_of_mem_take h
  rw [List.mem_mergeSort, List.mem_filter] at h2
  exact ⟨List.mem_range.mp h2.1, h2.2⟩

/-- With `spans_per_word = 1` the floor of line 181 is the document length. -/
lemma num_spans_to_keep_of_one (cfg : Config) (h : cfg.spansPerWord = 1)
    (n : ℕ) : num_spans_to_keep cfg n = n := by
  rw [num_spans_to_keep, h, one_mul]
  simp

/-- The kept-span count on the fresh path: K clamped to the number of valid
candidate spans. -/
lemma top_span_indices_length_eq {α : Type} [Inhabited α] (cfg : Config)
    (sc : Scorers α) (doc : Doc α)
    (hlen : doc.spanEmb.length = doc.spans.length) :
    (top_span_indices cfg sc doc).length =
      min (num_spans_to_keep cfg doc.docLen) (numValidSpans doc.spans) := by
  have hmask : (span_mask doc.spans).length = doc.spans.length := by
    simp [span_mask]
  rw [top_span_indices, prunerTopIndices_length, numValidSpans]
  simp [span_mention_scores, hlen, hmask]

/-- Outside the clamp regime (floor K at most the valid-candidate count) the
kept-span count equals the live `num_spans_to_keep` of line 181. -/
lemma nstk_eq_topIdx_length {α : Type} [Inhabited α] (cfg : Config)
    (sc : Scorers α) (doc : Doc α)
    (hlen : doc.spanEmb.length = doc.spans.length)
    (hK : num_spans_to_keep cfg doc.docLen ≤ numValidSpans doc.spans) :
    (top_span_indices cfg sc doc).length = num_spans_to_keep cfg doc.docLen := by
  rw [top_span_indices_length_eq cfg sc doc hlen]
  exact min_eq_left hK

/-- The returned `predicted_antecedents` has one row per `num_spans_to_keep`
(line 181's floor), whether or not the pruner clamped below it. -/
lemma freshOutput_preds_length {α : Type} [Inhabited α] (cfg : Config)
    (sc : Scorers α) (doc : Doc α) (get_scores : Bool) :
    (freshOutput cfg sc doc get_scores).predicted_antecedents.length =
      num_spans_to_keep cfg doc.docLen := by
  have h : (freshOutput cfg sc doc get_scores).predicted_antecedents.length =
      (freshMid cfg sc doc).nKept := by
    simp [freshOutput, scoreStage, predicted_antecedents, coreference_scores]
  exact h

/-- The returned antecedent-index window, written out: its row count and
width both come from line 181's floor (via line 226), not the kept count. -/
lemma freshOutput_antIdx {α : Type} [Inhabited α] (cfg : Config)
    (sc : Scorers α) (doc : Doc α) (get_scores : Bool) :
    (freshOutput cfg sc doc get_scores).antecedent_indices =
      valid_antecedent_indices (num_spans_to_keep cfg doc.docLen)
        (min cfg.maxAntecedents (num_spans_to_keep cfg doc.docLen)) := by
  have h : (freshOutput cfg sc doc get_scores).antecedent_indices =
      valid_antecedent_indices (freshMid cfg sc doc).nKept
        (min cfg.maxAntecedents (freshMid cfg sc doc).nKept) := by
    simp [freshOutput, scoreStage]
  exact h

/-- The returned `top_spans` gather, written out. -/
lemma freshOutput_top_spans {α : Type} [Inhabited α] (cfg : Config)
    (sc : Scorers α) (doc : Doc α) (get_scores : Bool) :
    (freshOutput cfg sc doc get_scores).top_spans =
      selectSpans (clampSpans doc.spans) (top_span_indices cfg sc doc) := by
  have h : (freshOutput cfg sc doc get_scores).top_spans =
      selectSpans (freshMid cfg sc doc).spansUsed (freshMid cfg sc doc).flatIdx := by
    simp [freshOutput, scoreStage]
  exact h

/-- `cleanDocSum`, unfolded. -/
lemma cleanDocSum_eq {α : Type} [Inhabited α] (cfg : Config) (sc : Scorers α)
    (doc : Doc α) (labels : List Int) :
    cleanDocSum cfg sc doc labels =
      ((List.range (top_span_indices cfg sc doc).length).map (fun i =>
        marginalGoldLogProb
          ((scoreStage cfg sc (freshMid cfg sc doc)).scores.getD i [])
          ((gold_antecedent_labels
            (indexSelect labels (freshMid cfg sc doc).flatIdx)
            (scoreStage cfg sc (freshMid cfg sc doc)).antIdx
            (scoreStage cfg sc (freshMid cfg sc doc)).antMask).getD i []))).sum :=
  rfl

lemma scoreXR_coe (q : ℚ) : scoreXR ((q : ℚ) : WithBot ℚ) = XR.fin ((q : ℚ) : ℝ) := rfl

lemma scoreXR_bot : scoreXR (⊥ : WithBot ℚ) = XR.ninf := rfl

lemma scoreXR_zero : scoreXR (0 : WithBot ℚ) = XR.fin 0 := by
  rw [← WithBot.coe_zero, scoreXR_coe]
  norm_num

lemma xr_exp_ninf : XR.exp XR.ninf = 0 := rfl

lemma XR.fin_inj {a b : ℝ} (h : XR.fin a = XR.fin b) : a = b := Option.some.inj h

lemma scores_length {α : Type} [Inhabited α] (sc : Scorers α) (topEmb : List α)
    (topScores : List ℚ) (antIdx : List (List ℕ)) (antMask : List (List Bool))
    (K W : ℕ) :
    (coreference_scores sc topEmb topScores antIdx antMask K W).length = K := by
  simp [coreference_scores]

lemma scores_getD {α : Type} [Inhabited α] (sc : Scorers α) (topEmb : List α)
    (topScores : List ℚ) (antIdx : List (List ℕ)) (antMask : List (List Bool))
    {K W i : ℕ} (h : i < K) :
    (coreference_scores sc topEmb topScores antIdx antMask K W).getD i [] =
      coreferenceRow sc topEmb topScores antIdx antMask W i :=
  getD_range_map _ _ h

lemma coreferenceRow_length {α : Type} [Inhabited α] (sc : Scorers α)
    (topEmb : List α) (topScores : List ℚ) (antIdx : List (List ℕ))
    (antMask : List (List Bool)) (W i : ℕ) :
    (coreferenceRow sc topEmb topScores antIdx antMask W i).length = W + 1 := by
  simp [coreferenceRow]

/-! ## C2 -/

/-- C2 (amended): on every fresh forward call the predicted antecedent of
each row of the score matrix is obtained by taking the argmax over the (1+W)
slots (ties resolved by lowest slot index) and subtracting 1, so that slot 0
(the fixed "no antecedent" option) yields -1 (no predicted link) and slot
j > 0 yields the antecedent-candidate index j-1.  The claim's shape
guarantee — one entry per kept span — needs the clamp regime excluded
(line 181's floor at most the valid-candidate count): line 181 is never
reassigned on the fresh path, so in the clamp regime `predicted_antecedents`
has one row per floor K, more rows than kept spans
(`C2_shape_counterexample`). -/
theorem C2_predicted_antecedents_argmax {α : Type} [Inhabited α] (cfg : Config)
    (sc : Scorers α) (doc : Doc α) (get_scores : Bool)
    (hlen : doc.spanEmb.length = doc.spans.length)
    (hK : num_spans_to_keep cfg doc.docLen ≤ numValidSpans doc.spans) :
    ∃ od : OutputDict,
      forward cfg sc doc get_scores none [] false false = .output od ∧
      od.predicted_antecedents.length = (top_span_indices cfg sc doc).length ∧
      ∀ i, i < od.predicted_antecedents.length →
        ∃ s : ℕ,
          firstArgmax ((scoreStage cfg sc (freshMid cfg sc doc)).scores.getD i []) s ∧
          od.predicted_antecedents.getD i 0 = (s : Int) - 1 ∧
          (od.predicted_antecedents.getD i 0 = -1 ↔ s = 0) := by
  refine ⟨freshOutput cfg sc doc get_scores, forward_fresh_eq cfg sc doc get_scores, ?_, ?_⟩
  · rw [freshOutput_preds_length, ← nstk_eq_topIdx_length cfg sc doc hlen hK]
  · intro i hi
    have hlen : (freshOutput cfg sc doc get_scores).predicted_antecedents =
        predicted_antecedents (scoreStage cfg sc (freshMid cfg sc doc)).scores := by
      simp [freshOutput, scoreStage]
    rw [hlen] at hi ⊢
    have hK : i < (scoreStage cfg sc (freshMid cfg sc doc)).scores.length := by
      simpa [predicted_antecedents] using hi
    have hval : (predicted_antecedents (scoreStage cfg sc (freshMid cfg sc doc)).scores).getD i 0 =
        (torchArgmax ((scoreStage cfg sc (freshMid cfg sc doc)).scores.getD i []) : Int) - 1 := by
      rw [predicted_antecedents, getD_map_lt _ _ _ [] hK]
    have hrow : (scoreStage cfg sc (freshMid cfg sc doc)).scores.getD i [] =
        coreferenceRow sc (freshMid cfg sc doc).topEmb (freshMid cfg sc doc).topScores
          (scoreStage cfg sc (freshMid cfg sc doc)).antIdx
          (scoreStage cfg sc (freshMid cfg sc doc)).antMask
          (scoreStage cfg sc (freshMid cfg sc doc)).W i := by
      have hK' : i < (freshMid cfg sc doc).nKept := by
        have := scores_length sc (freshMid cfg sc doc).topEmb (freshMid cfg sc doc).topScores
          (scoreStage cfg sc (freshMid cfg sc doc)).antIdx
          (scoreStage cfg sc (freshMid cfg sc doc)).antMask
          (freshMid cfg sc doc).nKept (scoreStage cfg sc (freshMid cfg sc doc)).W
        have hsc : (scoreStage cfg sc (freshMid cfg sc doc)).scores =
            coreference_scores sc (freshMid cfg sc doc).topEmb (freshMid cfg sc doc).topScores
              (scoreStage cfg sc (freshMid cfg sc doc)).antIdx
              (scoreStage cfg sc (freshMid cfg sc doc)).antMask
              (freshMid cfg sc doc).nKept (scoreStage cfg sc (freshMid cfg sc doc)).W := by
          simp [scoreStage]
        rw [hsc, scores_length] at hK
        exact hK
      have hsc : (scoreStage cfg sc (freshMid cfg sc doc)).scores =
          coreference_scores sc (freshMid cfg sc doc).topEmb (freshMid cfg sc doc).topScores
            (scoreStage cfg sc (freshMid cfg sc doc)).antIdx
            (scoreStage cfg sc (freshMid cfg sc doc)).antMask
            (freshMid cfg sc doc).nKept (scoreStage cfg sc (freshMid cfg sc doc)).W := by
        simp [scoreStage]
      rw [hsc, scores_getD _ _ _ _ _ hK']
    refine ⟨torchArgmax ((scoreStage cfg sc (freshMid cfg sc doc)).scores.getD i []), ?_, hval, ?_⟩
    · rw [hrow, coreferenceRow]
      exact (torchArgmax_spec _ _).2
    · rw [hval]
      omega

/-! ## C5 -/

lemma antMask_getD {K W i j : ℕ} (hi : i < K) (hj : j < W) :
    ((valid_antecedent_log_mask K W).getD i []).getD j true = validAntecedentBool i j := by
  rw [valid_antecedent_log_mask, getD_range_map _ _ hi, getD_range_map _ _ hj]

lemma antIdx_getD {K W i j : ℕ} (hi : i < K) (hj : j < W) :
    ((valid_antecedent_indices K W).getD i []).getD j 0 = antecedentIndexAt i j := by
  rw [valid_antecedent_indices, getD_range_map _ _ hi, getD_range_map _ _ hj]

lemma coreferenceRow_getD_succ {α : Type} [Inhabited α] (sc : Scorers α)
    (topEmb : List α) (topScores : List ℚ) (antIdx : List (List ℕ))
    (antMask : List (List Bool)) {W i j : ℕ} (hj : j < W) :
    (coreferenceRow sc topEmb topScores antIdx antMask W i).getD (j + 1) ⊥ =
      antecedentScore sc topEmb topScores antIdx antMask i j := by
  rw [coreferenceRow, List.getD_cons_succ, getD_range_map _ _ hj]

lemma antecedentScore_bot {α : Type} [Inhabited α] (sc : Scorers α)
    (topEmb : List α) (topScores : List ℚ) {K W i j : ℕ} (hi : i < K)
    (hj : j < W) (hij : i < j + 1) :
    antecedentScore sc topEmb topScores (valid_antecedent_indices K W)
      (valid_antecedent_log_mask K W) i j = ⊥ := by
  have hmask : validAntecedentBool i j = false := by
    simp only [validAntecedentBool, rawAntecedentIndex, decide_eq_false_iff_not, not_le]
    omega
  rw [antecedentScore]
  rw [antMask_getD hi hj, hmask]
  simp

/-- On the fresh window, the argmax slot of row `i` never exceeds `i` (every
later slot carries the `-inf` log-mask while the dummy slot scores 0), and it
is always within the 1+W row. -/
lemma torchArgmax_coreferenceRow_le {α : Type} [Inhabited α] (sc : Scorers α)
    (topEmb : List α) (topScores : List ℚ) (W : ℕ) {K i : ℕ} (hi : i < K) :
    torchArgmax (coreferenceRow sc topEmb topScores (valid_antecedent_indices K W)
      (valid_antecedent_log_mask K W) W i) ≤ i ∧
    torchArgmax (coreferenceRow sc topEmb topScores (valid_antecedent_indices K W)
      (valid_antecedent_log_mask K W) W i) < W + 1 := by
  have hspec := torchArgmax_spec (0 : WithBot ℚ)
    ((List.range W).map (fun j => antecedentScore sc topEmb topScores
      (valid_antecedent_indices K W) (valid_antecedent_log_mask K W) i j))
  rw [show ((0 : WithBot ℚ) ::
      (List.range W).map (fun j => antecedentScore sc topEmb topScores
        (valid_antecedent_indices K W) (valid_antecedent_log_mask K W) i j)) =
      coreferenceRow sc topEmb topScores (valid_antecedent_indices K W)
        (valid_antecedent_log_mask K W) W i from rfl] at hspec
  obtain ⟨hlt, hfmax⟩ := hspec
  have hlen : (coreferenceRow sc topEmb topScores (valid_antecedent_indices K W)
      (valid_antecedent_log_mask K W) W i).length = W + 1 :=
    coreferenceRow_length sc topEmb topScores _ _ W i
  rw [hlen] at hlt
  refine ⟨?_, hlt⟩
  by_contra hgt
  push_neg at hgt
  set s := torchArgmax (coreferenceRow sc topEmb topScores (valid_antecedent_indices K W)
    (valid_antecedent_log_mask K W) W i) with hs
  obtain ⟨j, hj⟩ : ∃ j, s = j + 1 := ⟨s - 1, by omega⟩
  have hjW : j < W := by omega
  have hbot : (coreferenceRow sc topEmb topScores (valid_antecedent_indices K W)
      (valid_antecedent_log_mask K W) W i).getD s ⊥ = ⊥ := by
    rw [hj, coreferenceRow_getD_succ _ _ _ _ _ hjW,
      antecedentScore_bot sc topEmb topScores hi hjW (by omega)]
  have hge : ((0 : ℚ) : WithBot ℚ) ≤ rowMax (coreferenceRow sc topEmb topScores
      (valid_antecedent_indices K W) (valid_antecedent_log_mask K W) W i) := by
    have h0 : (coreferenceRow sc topEmb topScores (valid_antecedent_indices K W)
        (valid_antecedent_log_mask K W) W i).getD 0 ⊥ = ((0 : ℚ) : WithBot ℚ) := by
      rw [coreferenceRow]
      rfl
    have := getD_le_rowMax (coreferenceRow sc topEmb topScores
      (valid_antecedent_indices K W) (valid_antecedent_log_mask K W) W i) 0 (by rw [hlen]; omega)
    rwa [h0] at this
  rw [← hfmax.1, hbot] at hge
  exact absurd hge (by simp)

/-- C5: on every fresh forward call, the predicted antecedent value of the
row at position i lies in {-1, 0, ..., i-1} — never the span itself, a later
row, or a slot outside the W-wide antecedent window, where W is the width of
line 226, `min(max_antecedents, num_spans_to_keep)` — position 0 always
receives -1; and for every row that is a kept span (i below the kept count)
the value is additionally below `min(max_antecedents, kept count)`. -/
theorem C5_predicted_antecedent_range {α : Type} [Inhabited α] (cfg : Config)
    (sc : Scorers α) (doc : Doc α) (get_scores : Bool) :
    ∃ od : OutputDict,
      forward cfg sc doc get_scores none [] false false = .output od ∧
      ∀ i, i < od.predicted_antecedents.length →
        -1 ≤ od.predicted_antecedents.getD i 0 ∧
        od.predicted_antecedents.getD i 0 < (i : Int) ∧
        od.predicted_antecedents.getD i 0 <
          (min cfg.maxAntecedents (num_spans_to_keep cfg doc.docLen) : Int) ∧
        (i < (top_span_indices cfg sc doc).length →
          od.predicted_antecedents.getD i 0 <
            (min cfg.maxAntecedents (top_span_indices cfg sc doc).length : Int)) ∧
        (i = 0 → od.predicted_antecedents.getD i 0 = -1) := by
  refine ⟨freshOutput cfg sc doc get_scores, forward_fresh_eq cfg sc doc get_scores, ?_⟩
  intro i hi
  have hlen : (freshOutput cfg sc doc get_scores).predicted_antecedents =
      predicted_antecedents (scoreStage cfg sc (freshMid cfg sc doc)).scores := by
    simp [freshOutput, scoreStage]
  rw [hlen] at hi ⊢
  have hsc : (scoreStage cfg sc (freshMid cfg sc doc)).scores =
      coreference_scores sc (freshMid cfg sc doc).topEmb (freshMid cfg sc doc).topScores
        (valid_antecedent_indices (freshMid cfg sc doc).nKept
          (min cfg.maxAntecedents (freshMid cfg sc doc).nKept))
        (valid_antecedent_log_mask (freshMid cfg sc doc).nKept
          (min cfg.maxAntecedents (freshMid cfg sc doc).nKept))
        (freshMid cfg sc doc).nKept
        (min cfg.maxAntecedents (freshMid cfg sc doc).nKept) := by
    simp [scoreStage]
  have hK : i < (freshMid cfg sc doc).nKept := by
    have := hi
    rw [predicted_antecedents, List.length_map, hsc, scores_length] at this
    exact this
  have hval : (predicted_antecedents (scoreStage cfg sc (freshMid cfg sc doc)).scores).getD i 0 =
      (torchArgmax ((scoreStage cfg sc (freshMid cfg sc doc)).scores.getD i []) : Int) - 1 := by
    rw [predicted_antecedents, getD_map_lt _ _ _ [] (by simpa [predicted_antecedents] using hi)]
  have hrow : (scoreStage cfg sc (freshMid cfg sc doc)).scores.getD i [] =
      coreferenceRow sc (freshMid cfg sc doc).topEmb (freshMid cfg sc doc).topScores
        (valid_antecedent_indices (freshMid cfg sc doc).nKept
          (min cfg.maxAntecedents (freshMid cfg sc doc).nKept))
        (valid_antecedent_log_mask (freshMid cfg sc doc).nKept
          (min cfg.maxAntecedents (freshMid cfg sc doc).nKept))
        (min cfg.maxAntecedents (freshMid cfg sc doc).nKept) i := by
    rw [hsc, scores_getD _ _ _ _ _ hK]
  have hle := torchArgmax_coreferenceRow_le sc (freshMid cfg sc doc).topEmb
    (freshMid cfg sc doc).topScores (min cfg.maxAntecedents (freshMid cfg sc doc).nKept) hK
  rw [← hrow] at hle
  have hnk : (freshMid cfg sc doc).nKept = num_spans_to_keep cfg doc.docLen := rfl
  rw [hval]
  refine ⟨by omega, by omega, by omega, ?_, by omega⟩
  intro hitop
  omega

/-! ## C6, C7, C10 -/

/-- C6 (amended): the spec-modelled pruner keeps
`⌊spans_per_word * document_length⌋` spans clamped to the number of valid
candidates (first conjunct), but the graceful clamp does not extend to the
rest of `forward`: line 181 is never reassigned, so the output dictionary is
shaped consistently with the clamped count only outside the clamp regime
(hypothesis `hK`); inside it the call returns floor-K rows of predicted
antecedents next to a clamped `top_spans` (`C6_clamp_counterexample`). -/
theorem C6_kept_span_count {α : Type} [Inhabited α] (cfg : Config)
    (sc : Scorers α) (doc : Doc α) (get_scores : Bool)
    (hlen : doc.spanEmb.length = doc.spans.length)
    (hK : num_spans_to_keep cfg doc.docLen ≤ numValidSpans doc.spans) :
    (top_span_indices cfg sc doc).length =
      min (num_spans_to_keep cfg doc.docLen) (numValidSpans doc.spans) ∧
    ∃ od : OutputDict,
      forward cfg sc doc get_scores none [] false false = .output od ∧
      od.top_spans.length =
        min (num_spans_to_keep cfg doc.docLen) (numValidSpans doc.spans) ∧
      od.predicted_antecedents.length =
        min (num_spans_to_keep cfg doc.docLen) (numValidSpans doc.spans) := by
  have hfirst := top_span_indices_length_eq cfg sc doc hlen
  refine ⟨hfirst, freshOutput cfg sc doc get_scores,
    forward_fresh_eq cfg sc doc get_scores, ?_, ?_⟩
  · rw [freshOutput_top_spans, selectSpans, List.length_map, hfirst]
  · rw [freshOutput_preds_length, min_eq_left hK]

/-- C7 (amended): the antecedent window actually used has
`min(configured max_antecedents, num_spans_to_keep)` columns — line 226 reads
the line-181 floor, not the kept count.  Outside the clamp regime
(hypothesis `hK`) that equals `min(max_antecedents, kept count)` and never
exceeds the kept-span count; inside it the width can exceed the kept count
(`C7_width_counterexample`). -/
theorem C7_window_width {α : Type} [Inhabited α] (cfg : Config)
    (sc : Scorers α) (doc : Doc α) (get_scores : Bool)
    (hlen : doc.spanEmb.length = doc.spans.length)
    (hK : num_spans_to_keep cfg doc.docLen ≤ numValidSpans doc.spans) :
    ∃ od : OutputDict,
      forward cfg sc doc get_scores none [] false false = .output od ∧
      od.antecedent_indices.length = (top_span_indices cfg sc doc).length ∧
      (∀ r ∈ od.antecedent_indices,
        r.length = min cfg.maxAntecedents (top_span_indices cfg sc doc).length) ∧
      min cfg.maxAntecedents (top_span_indices cfg sc doc).length ≤
        (top_span_indices cfg sc doc).length := by
  have hnk := nstk_eq_topIdx_length cfg sc doc hlen hK
  refine ⟨freshOutput cfg sc doc get_scores, forward_fresh_eq cfg sc doc get_scores,
    ?_, ?_, min_le_right _ _⟩
  · rw [freshOutput_antIdx, valid_antecedent_indices, List.length_map,
      List.length_range, hnk]
  · intro r hr
    rw [freshOutput_antIdx, valid_antecedent_indices] at hr
    obtain ⟨i, _, rfl⟩ := List.mem_map.mp hr
    simp [hnk]

/-- C10: on the fresh path the clamping of negative padding sentinels is a
pure transform producing a fresh value (each entry becomes its nonnegative
clamp, the input list is untouched), the span validity mask is computed from
the pre-clamp start indices (valid iff original start ≥ 0), and a clamped
padding span remains invalid: it is marked false and is never selected by the
pruner. -/
theorem C10_clamp_is_pure_and_mask_preclamp {α : Type} [Inhabited α]
    (cfg : Config) (sc : Scorers α) (doc : Doc α) :
    (freshMid cfg sc doc).spansUsed = clampSpans doc.spans ∧
    (∀ i, i < doc.spans.length →
      (clampSpans doc.spans).getD i (0, 0) =
        (max (doc.spans.getD i (0, 0)).1 0, max (doc.spans.getD i (0, 0)).2 0)) ∧
    (∀ i, i < doc.spans.length →
      ((span_mask doc.spans).getD i false = true ↔
        0 ≤ (doc.spans.getD i (0, 0)).1)) ∧
    (∀ i, i < doc.spans.length → (doc.spans.getD i (0, 0)).1 < 0 →
      (span_mask doc.spans).getD i false = false ∧
      0 ≤ ((clampSpans doc.spans).getD i (0, 0)).1 ∧
      i ∉ top_span_indices cfg sc doc) := by
  refine ⟨rfl, ?_, ?_, ?_⟩
  · intro i hi
    rw [clampSpans, getD_map_lt _ _ _ (0, 0) hi]
  · intro i hi
    rw [span_mask, getD_map_lt _ _ _ (0, 0) hi]
    simp
  · intro i hi hneg
    have hmask : (span_mask doc.spans).getD i false = false := by
      rw [span_mask, getD_map_lt _ _ _ (0, 0) hi]
      exact decide_eq_false (by omega)
    refine ⟨hmask, ?_, ?_⟩
    · rw [clampSpans, getD_map_lt _ _ _ (0, 0) hi]
      exact le_max_right _ _
    · intro hmem
      have := (prunerTopIndices_mem _ _ _ hmem).2
      rw [hmask] at this
      exact Bool.false_ne_true this

/-! ## C8 -/

lemma finishOutput_loss {α : Type} (doc : Doc α) (gs : Bool) (ti fi : List ℕ)
    (ai : List (List ℕ)) (am : List (List Bool))
    (rows : List (List (WithBot ℚ))) (tm : List Bool) (od od' : OutputDict)
    (h : finishOutput doc gs ti fi ai am rows tm od = .output od') :
    od'.loss.isSome ↔ (doc.spanLabels.isSome ∨ od.loss.isSome) := by
  rw [finishOutput] at h
  cases hl : doc.spanLabels with
  | some labels =>
      rw [hl] at h
      cases gs <;> simp only [Bool.false_eq_true, if_false, if_true] at h <;>
        injection h with h2 <;> rw [← h2] <;> simp [hl]
  | none =>
      rw [hl] at h
      cases gs <;> simp only [Bool.false_eq_true, if_false, if_true] at h <;>
        injection h with h2 <;> rw [← h2] <;> simp [hl]

/-- C8: a forward call that completes prediction returns a dictionary with a
loss entry iff `span_labels` was supplied — no loss at inference time, a
scalar loss whenever labels are present.  (For the precomputed-scoring entry
the supplied output dictionary must not itself already carry a stale loss
entry.) -/
theorem C8_loss_iff_labels {α : Type} [Inhabited α] (cfg : Config)
    (sc : Scorers α) (doc : Doc α) (get_scores : Bool)
    (tsi : Option (TopSpansInfo α)) (csi : InfoDict) (od : OutputDict)
    (hclean : ∀ od₀ : OutputDict,
      lookupKey csi "output_dict" = some (.outDict od₀) → od₀.loss = none)
    (h : forward cfg sc doc get_scores tsi csi false false = .output od) :
    od.loss.isSome ↔ doc.spanLabels.isSome := by
  cases csi with
  | nil =>
      rw [forward.eq_def] at h
      simp only [List.isEmpty_nil, if_true] at h
      cases tsi with
      | none =>
          simp only [Bool.false_eq_true, if_false] at h
          rw [forwardAfterMid] at h
          simp only [Bool.false_eq_true, if_false, Bool.or_false] at h
          have := finishOutput_loss doc get_scores _ _ _ _ _ _ _ od h
          simpa using this
      | some info =>
          rw [forwardAfterMid] at h
          simp only [Bool.false_eq_true, if_false, Bool.or_false] at h
          have := finishOutput_loss doc get_scores _ _ _ _ _ _ _ od h
          simpa using this
  | cons p rest =>
      rw [forward.eq_def] at h
      simp only [List.isEmpty_cons, Bool.false_eq_true, if_false] at h
      rw [forwardFromScores] at h
      cases h1 : lookupKey (p :: rest) "top_span_inds" with
      | none => simp [h1] at h
      | some v1 =>
        cases v1 with
        | indsPair topIdx flatIdx =>
          cases h2 : lookupKey (p :: rest) "top_span_mask" with
          | none => simp [h1, h2] at h
          | some v2 =>
            cases v2 with
            | boolMask topMask =>
              cases h3 : lookupKey (p :: rest) "valid_antecedent_log_mask" with
              | none => simp [h1, h2, h3] at h
              | some v3 =>
                cases v3 with
                | antMask am =>
                  cases h4 : lookupKey (p :: rest) "output_dict" with
                  | none => simp [h1, h2, h3, h4] at h
                  | some v4 =>
                    cases v4 with
                    | outDict od₀ =>
                      cases h5 : od₀.coreference_scores with
                      | none => simp [h1, h2, h3, h4, h5] at h
                      | some rows =>
                        simp only [h1, h2, h3, h4, h5] at h
                        have hloss := finishOutput_loss doc get_scores _ _ _ _ _ _ _ od h
                        have hnone : od₀.loss = none := hclean od₀ h4
                        simp only [hnone] at hloss
                        simpa using hloss
                    | indsPair a b => simp [h1, h2, h3, h4] at h
                    | boolMask m => simp [h1, h2, h3, h4] at h
                    | antMask m => simp [h1, h2, h3, h4] at h
                | indsPair a b => simp [h1, h2, h3] at h
                | boolMask m => simp [h1, h2, h3] at h
                | outDict d => simp [h1, h2, h3] at h
            | indsPair a b => simp [h1, h2] at h
            | antMask m => simp [h1, h2] at h
            | outDict d => simp [h1, h2] at h
        | boolMask m => simp [h1] at h
        | antMask m => simp [h1] at h
        | outDict d => simp [h1] at h

/-! ## Log-domain lemmas for the loss -/

lemma xr_add_fin (a b : ℝ) : (XR.fin a).add (XR.fin b) = XR.fin (a + b) := rfl

lemma xr_add_ninf (x : XR) : x.add XR.ninf = XR.ninf := by
  cases x <;> rfl

lemma xr_add_fin_zero (x : XR) : x.add (XR.fin 0) = x := by
  cases x with
  | none => rfl
  | some a => show XR.fin (a + 0) = XR.fin a; rw [add_zero]

lemma xr_exp_nonneg (x : XR) : 0 ≤ XR.exp x := by
  cases x with
  | none => exact le_refl 0
  | some a => exact le_of_lt (Real.exp_pos a)

lemma xr_exp_fin (a : ℝ) : XR.exp (XR.fin a) = Real.exp a := rfl

lemma xr_exp_subR (x : XR) (m : ℝ) :
    XR.exp (x.subR m) = XR.exp x * Real.exp (-m) := by
  cases x with
  | none => show (0 : ℝ) = 0 * Real.exp (-m); rw [zero_mul]
  | some a =>
      show Real.exp (a - m) = Real.exp a * Real.exp (-m)
      rw [← Real.exp_add]
      ring_nf

lemma xr_exp_add_fin (x : XR) (c : ℝ) :
    XR.exp (x.add (XR.fin c)) = XR.exp x * Real.exp c := by
  cases x with
  | none => show (0 : ℝ) = 0 * Real.exp c; rw [zero_mul]
  | some a =>
      show Real.exp (a + c) = Real.exp a * Real.exp c
      exact Real.exp_add a c

lemma xr_add_fin_subR (x : XR) (c d : ℝ) :
    (x.add (XR.fin c)).subR (d + c) = x.subR d := by
  cases x with
  | none => rfl
  | some a =>
      show XR.fin (a + c - (d + c)) = XR.fin (a - d)
      ring_nf

lemma xlog_pos (v : ℝ) (h : 0 < v) : xlog v = XR.fin (Real.log v) := by
  rw [xlog, if_neg (not_le.mpr h)]

lemma xlog_one : xlog 1 = XR.fin 0 := by
  rw [xlog_pos 1 one_pos, Real.log_one]

lemma xlog_zero : xlog 0 = XR.ninf := by
  rw [xlog, if_pos (le_refl 0)]

lemma maskEps_pos : (0 : ℝ) < maskEps := by
  rw [maskEps]
  positivity

lemma sum_exp_nonneg (l : List XR) : 0 ≤ (l.map XR.exp).sum := by
  apply List.sum_nonneg
  intro x hx
  obtain ⟨y, _, rfl⟩ := List.mem_map.mp hx
  exact xr_exp_nonneg y

lemma sum_exp_pos (l : List XR) (h : ∃ a : ℝ, XR.fin a ∈ l) :
    0 < (l.map XR.exp).sum := by
  obtain ⟨a, ha⟩ := h
  have hmem : Real.exp a ∈ l.map XR.exp := by
    rw [← xr_exp_fin a]
    exact List.mem_map_of_mem XR.exp ha
  have hle : Real.exp a ≤ (l.map XR.exp).sum := by
    apply List.single_le_sum _ _ hmem
    intro x hx
    obtain ⟨y, _, rfl⟩ := List.mem_map.mp hx
    exact xr_exp_nonneg y
  exact lt_of_lt_of_le (Real.exp_pos a) hle

lemma foldl_vmax_fin_acc : ∀ (l : List XR) (x : ℝ),
    ∃ m : ℝ, l.foldl XR.vmax (XR.fin x) = XR.fin m
  | [], x => ⟨x, rfl⟩
  | y :: ys, x => by
      cases y with
      | none => exact foldl_vmax_fin_acc ys x
      | some b => exact foldl_vmax_fin_acc ys (max x b)

lemma foldl_vmax_fin : ∀ (l : List XR) (acc : XR),
    (∃ a : ℝ, XR.fin a ∈ l) → ∃ m : ℝ, l.foldl XR.vmax acc = XR.fin m
  | [], _, h => by
      obtain ⟨a, ha⟩ := h
      exact absurd ha (List.not_mem_nil _)
  | y :: ys, acc, h => by
      obtain ⟨a, ha⟩ := h
      rcases List.mem_cons.mp ha with heq | hmem
      · cases acc with
        | none =>
            rw [List.foldl_cons, ← heq]
            exact foldl_vmax_fin_acc ys a
        | some c =>
            rw [List.foldl_cons, ← heq]
            exact foldl_vmax_fin_acc ys (max c a)
      · exact foldl_vmax_fin ys (XR.vmax acc y) ⟨a, hmem⟩

/-- `util.logsumexp`, with its max-shift, equals the plain log of the sum of
exponentials whenever some entry is finite (the only situation the code
reaches). -/
lemma utilLogsumexp_clean (l : List XR) (h : ∃ a : ℝ, XR.fin a ∈ l) :
    utilLogsumexp l = XR.fin (Real.log ((l.map XR.exp).sum)) := by
  obtain ⟨m, hm⟩ := foldl_vmax_fin l XR.ninf h
  rw [utilLogsumexp, hm]
  show XR.fin (m + Real.log ((l.map (fun x => XR.exp (x.subR m))).sum)) = _
  have hmap : l.map (fun x => XR.exp (x.subR m)) =
      l.map (fun x => XR.exp x * Real.exp (-m)) :=
    List.map_congr_left (fun x _ => xr_exp_subR x m)
  have hsum : (l.map (fun x => XR.exp x * Real.exp (-m))).sum =
      (l.map XR.exp).sum * Real.exp (-m) := by
    rw [← List.sum_map_mul_right]
  rw [hmap, hsum, Real.log_mul (ne_of_gt (sum_exp_pos l h)) (Real.exp_ne_zero _),
    Real.log_exp]
  rw [XR.fin, XR.fin]
  ring_nf

/-- The 1e-45-shifted masked log-softmax equals the plain log-softmax of the
raw scores: the same finite constant `log (mask + 1e-45)` is added to every
slot of a row (the mask bit is per-span), so it cancels in the softmax.  In
particular a kept span whose validity bit is false gets its ordinary
log-softmax row, exactly as a valid one does. -/
lemma maskedLogSoftmaxRow_shift (row : List (WithBot ℚ)) (m : Bool)
    (h : ∃ q : ℚ, ((q : WithBot ℚ) ∈ row)) :
    maskedLogSoftmaxRow row m =
      row.map (fun x => (scoreXR x).subR
        (Real.log ((row.map (fun y => XR.exp (scoreXR y))).sum))) := by
  have hc : (0 : ℝ) < (if m then 1 else 0) + maskEps := by
    cases m
    · simpa using maskEps_pos
    · simp only [if_true]
      linarith [maskEps_pos]
  have hxlog : xlog ((if m then 1 else 0) + maskEps) =
      XR.fin (Real.log ((if m then 1 else 0) + maskEps)) := xlog_pos _ hc
  set c := Real.log ((if m then 1 else 0) + maskEps) with hcdef
  rw [maskedLogSoftmaxRow]
  rw [hxlog]
  have hfin : ∃ a : ℝ, XR.fin a ∈ row.map (fun x => (scoreXR x).add (XR.fin c)) := by
    obtain ⟨q, hq⟩ := h
    refine ⟨(q : ℝ) + c, ?_⟩
    have : (XR.fin ((q : ℝ) + c)) = (scoreXR ((q : ℚ) : WithBot ℚ)).add (XR.fin c) := rfl
    rw [this]
    exact List.mem_map_of_mem _ hq
  have hS : ((row.map (fun x => (scoreXR x).add (XR.fin c))).map XR.exp).sum =
      ((row.map (fun y => XR.exp (scoreXR y))).sum) * Real.exp c := by
    rw [← List.sum_map_mul_right, List.map_map]
    apply congrArg List.sum
    apply List.map_congr_left
    intro x _
    show XR.exp ((scoreXR x).add (XR.fin c)) = XR.exp (scoreXR x) * Real.exp c
    exact xr_exp_add_fin (scoreXR x) c
  have hSpos : 0 < (row.map (fun y => XR.exp (scoreXR y))).sum := by
    have := sum_exp_pos (row.map (fun y => scoreXR y)) ?_
    · rwa [List.map_map] at this
    · obtain ⟨q, hq⟩ := h
      exact ⟨(q : ℝ), by
        have : (XR.fin (q : ℝ)) = scoreXR ((q : ℚ) : WithBot ℚ) := rfl
        rw [this]
        exact List.mem_map_of_mem _ hq⟩
  rw [hS, Real.log_mul (ne_of_gt hSpos) (Real.exp_ne_zero _), Real.log_exp]
  rw [List.map_map]
  apply List.map_congr_left
  intro x _
  exact xr_add_fin_subR (scoreXR x) c _

lemma zipWith_eq_range_map {β γ δ : Type _} (f : β → γ → δ) :
    ∀ (xs : List β) (ys : List γ) (dx : β) (dy : γ), xs.length = ys.length →
      xs.zipWith f ys =
        (List.range xs.length).map (fun j => f (xs.getD j dx) (ys.getD j dy))
  | [], [], _, _, _ => rfl
  | [], _ :: _, _, _, h => by simp at h
  | _ :: _, [], _, _, h => by simp at h
  | x :: xs, y :: ys, dx, dy, h => by
      have ih := zipWith_eq_range_map f xs ys dx dy (by simpa using h)
      have hcomp : ((fun j => f ((x :: xs).getD j dx) ((y :: ys).getD j dy)) ∘ Nat.succ) =
          (fun j => f (xs.getD j dx) (ys.getD j dy)) := by
        funext j
        simp [List.getD_cons_succ]
      rw [List.zipWith_cons_cons, ih, List.length_cons, List.range_succ_eq_map,
        List.map_cons, List.map_map, hcomp, List.getD_cons_zero, List.getD_cons_zero]

lemma sum_map_ite_filter (p : ℕ → Bool) (f : ℕ → ℝ) :
    ∀ l : List ℕ,
      (l.map (fun j => if p j then f j else 0)).sum = ((l.filter p).map f).sum
  | [] => by simp
  | j :: rest => by
      have ih := sum_map_ite_filter p f rest
      rw [List.map_cons, List.sum_cons, List.filter_cons]
      by_cases hp : p j = true
      · rw [if_pos hp, if_pos hp, List.map_cons, List.sum_cons, ih]
      · rw [if_neg hp, if_neg hp, ih, zero_add]

lemma correct_entry (lp : XR) (g : Bool) :
    lp.add (xlog (if g then 1 else 0)) = if g then lp else XR.ninf := by
  cases g
  · show lp.add (xlog 0) = XR.ninf
    rw [xlog_zero, xr_add_ninf]
  · show lp.add (xlog 1) = lp
    rw [xlog_one, xr_add_fin_zero]

lemma scores_sum_pos (row : List (WithBot ℚ))
    (hfin : ∃ q : ℚ, ((q : WithBot ℚ) ∈ row)) :
    0 < (row.map (fun y => XR.exp (scoreXR y))).sum := by
  obtain ⟨q, hq⟩ := hfin
  have := sum_exp_pos (row.map (fun y => scoreXR y)) ?_
  · rwa [List.map_map] at this
  · exact ⟨(q : ℝ), by
      have hx : (XR.fin (q : ℝ)) = scoreXR ((q : ℚ) : WithBot ℚ) := rfl
      rw [hx]
      exact List.mem_map_of_mem _ hq⟩

/-- One row's loss term: `util.logsumexp` of the indicator-restricted
log-probabilities equals the marginal gold log-likelihood of the row —
independently of the row's validity bit, whose 1e-45 shift cancels in the
softmax. -/
lemma row_contribution (row : List (WithBot ℚ)) (g : List Bool) (m : Bool)
    (hlen : g.length = row.length)
    (hfin : ∃ q : ℚ, ((q : WithBot ℚ) ∈ row))
    (hgood : ∃ j, j < row.length ∧ g.getD j false = true ∧ row.getD j ⊥ ≠ ⊥) :
    utilLogsumexp (correctRowLogProbs row m g) =
      XR.fin (marginalGoldLogProb row g) := by
  have hSpos := scores_sum_pos row hfin
  rw [correctRowLogProbs, maskedLogSoftmaxRow_shift row m hfin]
  set S := (row.map (fun y => XR.exp (scoreXR y))).sum with hSdef
  set F := fun x : WithBot ℚ => (scoreXR x).subR (Real.log S) with hFdef
  have hlen2 : (row.map F).length = g.length := by
    rw [List.length_map, hlen]
  rw [zipWith_eq_range_map _ (row.map F) g XR.ninf false hlen2]
  have hentry : ∀ j ∈ List.range (row.map F).length,
      ((row.map F).getD j XR.ninf).add (xlog (if g.getD j false then 1 else 0)) =
        (if g.getD j false then F (row.getD j ⊥) else XR.ninf) := by
    intro j hj
    have hjlt : j < row.length := by
      have := List.mem_range.mp hj
      rwa [List.length_map] at this
    rw [getD_map_lt F row XR.ninf ⊥ hjlt, correct_entry]
  rw [List.map_congr_left hentry]
  have hwit : ∃ a : ℝ, XR.fin a ∈ (List.range (row.map F).length).map
      (fun j => if g.getD j false then F (row.getD j ⊥) else XR.ninf) := by
    obtain ⟨j₀, hj₀, hg₀, hne₀⟩ := hgood
    obtain ⟨q, hq⟩ := WithBot.ne_bot_iff_exists.mp hne₀
    refine ⟨(q : ℝ) - Real.log S, ?_⟩
    have hmem : j₀ ∈ List.range (row.map F).length := by
      rw [List.length_map]
      exact List.mem_range.mpr hj₀
    have hv : (if g.getD j₀ false then F (row.getD j₀ ⊥) else XR.ninf) =
        XR.fin ((q : ℝ) - Real.log S) := by
      rw [if_pos hg₀, hFdef, ← hq]
      rfl
    rw [← hv]
    exact List.mem_map_of_mem _ hmem
  rw [utilLogsumexp_clean _ hwit]
  have hexp : ∀ j ∈ List.range (row.map F).length,
      XR.exp (if g.getD j false then F (row.getD j ⊥) else XR.ninf) =
        (if g.getD j false then softmaxProb row j else 0) := by
    intro j hj
    by_cases hg : g.getD j false = true
    · rw [if_pos hg, if_pos hg, hFdef]
      show XR.exp ((scoreXR (row.getD j ⊥)).subR (Real.log S)) = softmaxProb row j
      rw [xr_exp_subR, Real.exp_neg, Real.exp_log hSpos, softmaxProb]
      rw [div_eq_mul_inv]
    · rw [if_neg hg, if_neg hg]
      rfl
  rw [List.map_map]
  have hmapped : (List.range (row.map F).length).map
      (XR.exp ∘ fun j => if g.getD j false then F (row.getD j ⊥) else XR.ninf) =
      (List.range (row.map F).length).map
        (fun j => if g.getD j false then softmaxProb row j else 0) := by
    apply List.map_congr_left
    intro j hj
    exact hexp j hj
  rw [hmapped, sum_map_ite_filter (fun j => g.getD j false) (softmaxProb row)
    (List.range (row.map F).length)]
  rw [marginalGoldLogProb]
  rw [List.length_map]

/-! ## Gold-indicator lemmas -/

lemma wrap64_id (x : Int) (h1 : -(2 ^ 63) ≤ x) (h2 : x < 2 ^ 63) :
    wrap64 x = x := by
  rw [wrap64]
  omega

/-- A sane gold label can never equal the int64-wrapped label of an invalid
window slot (`label + INT64_MIN`, wrapped). -/
lemma wrap64_shift_ne (t l : Int) (ht2 : t < 2 ^ 62) (hl1 : -1 ≤ l)
    (hl2 : l < 2 ^ 62) (htp : 0 ≤ t) : t ≠ wrap64 (l + int64Min) := by
  rw [wrap64, int64Min]
  omega

lemma labels_getD_bounded (labels : List Int) (hb : labelsBounded labels)
    (n : ℕ) : -1 ≤ labels.getD n 0 ∧ labels.getD n 0 < 2 ^ 62 := by
  by_cases h : n < labels.length
  · rw [List.getD_eq_getElem?_getD, List.getElem?_eq_getElem h]
    exact hb _ (List.getElem_mem h)
  · rw [List.getD_eq_default _ _ (by omega)]
    norm_num

lemma indexSelect_getD_bounded (labels : List Int) (fi : List ℕ)
    (hb : labelsBounded labels) (n : ℕ) :
    -1 ≤ (indexSelect labels fi).getD n (-1) ∧
      (indexSelect labels fi).getD n (-1) < 2 ^ 62 := by
  by_cases h : n < fi.length
  · rw [indexSelect, getD_map_lt _ _ _ 0 h]
    exact labels_getD_bounded labels hb _
  · rw [List.getD_eq_default _ _ (by simp [indexSelect]; omega)]
    norm_num

lemma goldRow_length (pruned : List Int) (antIdx : List (List ℕ))
    (antMask : List (List Bool)) (i : ℕ) :
    (goldRow pruned antIdx antMask i).length = (antIdx.getD i []).length + 1 := by
  simp [goldRow]

lemma goldRow_getD_succ (pruned : List Int) (antIdx : List (List ℕ))
    (antMask : List (List Bool)) {i j : ℕ} (hj : j < (antIdx.getD i []).length) :
    (goldRow pruned antIdx antMask i).getD (j + 1) false =
      pairwiseGold pruned antIdx antMask i j := by
  simp only [goldRow]
  rw [List.getD_cons_succ, getD_range_map _ _ hj]

lemma goldRow_getD_zero (pruned : List Int) (antIdx : List (List ℕ))
    (antMask : List (List Bool)) (i : ℕ) :
    (goldRow pruned antIdx antMask i).getD 0 false =
      !(((List.range (antIdx.getD i []).length).map
        (fun j => pairwiseGold pruned antIdx antMask i j)).any (fun b => b)) := by
  simp only [goldRow]
  rfl

lemma gold_antecedent_labels_getD (pruned : List Int) (antIdx : List (List ℕ))
    (antMask : List (List Bool)) {i : ℕ} (hi : i < antIdx.length) :
    (gold_antecedent_labels pruned antIdx antMask).getD i [] =
      goldRow pruned antIdx antMask i := by
  rw [gold_antecedent_labels, getD_range_map _ _ hi]

/-- Every gold-indicator row has an indicator-true slot whose score is
finite: either the dummy slot (score 0) when no pairwise slot fires, or a
firing pairwise slot, which under sane label bounds can only be an unmasked
slot (a masked slot's wrapped label collides with no real label). -/
lemma goldRow_good {α : Type} [Inhabited α] (sc : Scorers α) (topEmb : List α)
    (topScores : List ℚ) (pruned : List Int) {K : ℕ} (W : ℕ) {i : ℕ}
    (hi : i < K)
    (hb : ∀ n, -1 ≤ pruned.getD n (-1) ∧ pruned.getD n (-1) < 2 ^ 62) :
    ∃ j, j < W + 1 ∧
      (goldRow pruned (valid_antecedent_indices K W)
        (valid_antecedent_log_mask K W) i).getD j false = true ∧
      (coreferenceRow sc topEmb topScores (valid_antecedent_indices K W)
        (valid_antecedent_log_mask K W) W i).getD j ⊥ ≠ ⊥ := by
  have hrowlen : ((valid_antecedent_indices K W).getD i []).length = W := by
    rw [valid_antecedent_indices, getD_range_map _ _ hi]
    simp
  by_cases hany : ((List.range ((valid_antecedent_indices K W).getD i []).length).map
      (fun j => pairwiseGold pruned (valid_antecedent_indices K W)
        (valid_antecedent_log_mask K W) i j)).any (fun b => b) = true
  · obtain ⟨b, hbmem, hbtrue⟩ := List.any_eq_true.mp hany
    obtain ⟨j, hjmem, hjeq⟩ := List.mem_map.mp hbmem
    have hjW : j < W := by
      have := List.mem_range.mp hjmem
      omega
    have hpg : pairwiseGold pruned (valid_antecedent_indices K W)
        (valid_antecedent_log_mask K W) i j = true := by
      rw [hjeq]
      exact hbtrue
    refine ⟨j + 1, by omega, ?_, ?_⟩
    · rw [goldRow_getD_succ _ _ _ (by omega)]
      exact hpg
    · rw [coreferenceRow_getD_succ _ _ _ _ _ hjW]
      by_cases hmaskbit : validAntecedentBool i j = true
      · rw [antecedentScore]
        rw [antMask_getD hi hjW, hmaskbit]
        simp only [if_true]
        exact WithBot.coe_ne_bot
      · exfalso
        rw [pairwiseGold, Bool.and_eq_true, decide_eq_true_eq, decide_eq_true_eq] at hpg
        obtain ⟨hpg1, hpg2⟩ := hpg
        rw [antecedent_labels, antMask_getD hi hjW, if_neg hmaskbit] at hpg1
        have hbt := hb i
        have hba := hb (((valid_antecedent_indices K W).getD i []).getD j 0)
        exact wrap64_shift_ne _ _ hbt.2 hba.1 hba.2 hpg2 hpg1
  · refine ⟨0, by omega, ?_, ?_⟩
    · rw [goldRow_getD_zero]
      rw [Bool.not_eq_true] at hany
      rw [hany]
      rfl
    · rw [coreferenceRow, List.getD_cons_zero, ← WithBot.coe_zero]
      exact WithBot.coe_ne_bot

/-! ## C1 -/

lemma map_const_true (l : List ℕ) :
    l.map (fun _ => true) = List.replicate l.length true := by
  induction l with
  | nil => rfl
  | cons x xs ih => simp [List.replicate_succ, ih]

lemma sum_map_neg_eq {β : Type _} (l : List β) (f : β → ℝ) :
    (l.map (fun x => -f x)).sum = -((l.map f).sum) := by
  induction l with
  | nil => simp
  | cons x xs ih =>
      simp only [List.map_cons, List.sum_cons, ih]
      ring

lemma sumXR_fins_aux : ∀ (l : List ℝ) (acc : ℝ),
    (l.map XR.fin).foldl XR.add (XR.fin acc) = XR.fin (acc + l.sum)
  | [], acc => by
      rw [List.map_nil, List.foldl_nil, List.sum_nil, add_zero]
  | x :: xs, acc => by
      rw [List.map_cons, List.foldl_cons, xr_add_fin, sumXR_fins_aux xs (acc + x),
        List.sum_cons]
      exact congrArg XR.fin (by ring)

lemma sumXR_fins (l : List ℝ) : sumXR (l.map XR.fin) = XR.fin l.sum := by
  rw [sumXR, sumXR_fins_aux l 0, zero_add]

lemma negXR_fin (a : ℝ) : negXR (XR.fin a) = XR.fin (-a) := rfl

lemma coreferenceRow_fin_mem {α : Type} [Inhabited α] (sc : Scorers α)
    (topEmb : List α) (topScores : List ℚ) (antIdx : List (List ℕ))
    (antMask : List (List Bool)) (W i : ℕ) :
    ∃ q : ℚ, ((q : WithBot ℚ) ∈
      coreferenceRow sc topEmb topScores antIdx antMask W i) := by
  refine ⟨0, ?_⟩
  rw [coreferenceRow, WithBot.coe_zero]
  exact List.mem_cons_self _ _

lemma antIdx_row_length {K W i : ℕ} (hi : i < K) :
    ((valid_antecedent_indices K W).getD i []).length = W := by
  rw [valid_antecedent_indices, getD_range_map _ _ hi]
  simp

/-- The loss block on the fresh path computes exactly the negated sum of
marginal gold log-likelihoods over all kept spans (finite, never NaN) —
outside the clamp regime, where the score matrix has exactly one row per kept
span. -/
lemma lossStage_fresh_eq {α : Type} [Inhabited α] (cfg : Config)
    (sc : Scorers α) (doc : Doc α) (labels : List Int)
    (hb : labelsBounded labels)
    (hemb : doc.spanEmb.length = doc.spans.length)
    (hK : num_spans_to_keep cfg doc.docLen ≤ numValidSpans doc.spans) :
    lossStage labels (freshMid cfg sc doc).flatIdx
      (scoreStage cfg sc (freshMid cfg sc doc)).antIdx
      (scoreStage cfg sc (freshMid cfg sc doc)).antMask
      (scoreStage cfg sc (freshMid cfg sc doc)).scores
      (freshMid cfg sc doc).topMask =
      XR.fin (-(cleanDocSum cfg sc doc labels)) := by
  have hbp : ∀ n, -1 ≤ (indexSelect labels (freshMid cfg sc doc).flatIdx).getD n (-1) ∧
      (indexSelect labels (freshMid cfg sc doc).flatIdx).getD n (-1) < 2 ^ 62 :=
    indexSelect_getD_bounded labels _ hb
  have hAI : (scoreStage cfg sc (freshMid cfg sc doc)).antIdx =
      valid_antecedent_indices (freshMid cfg sc doc).nKept
        (min cfg.maxAntecedents (freshMid cfg sc doc).nKept) := by
    simp [scoreStage]
  have hAM : (scoreStage cfg sc (freshMid cfg sc doc)).antMask =
      valid_antecedent_log_mask (freshMid cfg sc doc).nKept
        (min cfg.maxAntecedents (freshMid cfg sc doc).nKept) := by
    simp [scoreStage]
  have hSC : (scoreStage cfg sc (freshMid cfg sc doc)).scores =
      coreference_scores sc (freshMid cfg sc doc).topEmb
        (freshMid cfg sc doc).topScores
        (scoreStage cfg sc (freshMid cfg sc doc)).antIdx
        (scoreStage cfg sc (freshMid cfg sc doc)).antMask
        (freshMid cfg sc doc).nKept
        (min cfg.maxAntecedents (freshMid cfg sc doc).nKept) := by
    rw [hAI, hAM]
    simp [scoreStage]
  have hKlen : (scoreStage cfg sc (freshMid cfg sc doc)).scores.length =
      (freshMid cfg sc doc).nKept := by
    rw [hSC, scores_length]
  have hnk := nstk_eq_topIdx_length cfg sc doc hemb hK
  have hKlen2 : (scoreStage cfg sc (freshMid cfg sc doc)).scores.length =
      (top_span_indices cfg sc doc).length := by
    rw [hKlen, hnk]
    rfl
  rw [lossStage]
  rw [negative_marginal_log_likelihood]
  rw [hKlen2]
  have hmap : (List.range (top_span_indices cfg sc doc).length).map
      (fun i => utilLogsumexp (correctRowLogProbs
        ((scoreStage cfg sc (freshMid cfg sc doc)).scores.getD i [])
        ((freshMid cfg sc doc).topMask.getD i false)
        ((gold_antecedent_labels (indexSelect labels (freshMid cfg sc doc).flatIdx)
          (scoreStage cfg sc (freshMid cfg sc doc)).antIdx
          (scoreStage cfg sc (freshMid cfg sc doc)).antMask).getD i []))) =
      (List.range (top_span_indices cfg sc doc).length).map
        (fun i => XR.fin (marginalGoldLogProb
          ((scoreStage cfg sc (freshMid cfg sc doc)).scores.getD i [])
          ((gold_antecedent_labels (indexSelect labels (freshMid cfg sc doc).flatIdx)
            (scoreStage cfg sc (freshMid cfg sc doc)).antIdx
            (scoreStage cfg sc (freshMid cfg sc doc)).antMask).getD i []))) := by
    apply List.map_congr_left
    intro i hi
    have hiK : i < (freshMid cfg sc doc).nKept := by
      have h1 := List.mem_range.mp hi
      have h2 : (freshMid cfg sc doc).nKept = num_spans_to_keep cfg doc.docLen := rfl
      omega
    have hrow : (scoreStage cfg sc (freshMid cfg sc doc)).scores.getD i [] =
        coreferenceRow sc (freshMid cfg sc doc).topEmb
          (freshMid cfg sc doc).topScores
          (scoreStage cfg sc (freshMid cfg sc doc)).antIdx
          (scoreStage cfg sc (freshMid cfg sc doc)).antMask
          (min cfg.maxAntecedents (freshMid cfg sc doc).nKept) i := by
      rw [hSC, scores_getD _ _ _ _ _ hiK]
    have hiAI : i < (scoreStage cfg sc (freshMid cfg sc doc)).antIdx.length := by
      rw [hAI, valid_antecedent_indices]
      simpa using hiK
    have hg : (gold_antecedent_labels (indexSelect labels (freshMid cfg sc doc).flatIdx)
        (scoreStage cfg sc (freshMid cfg sc doc)).antIdx
        (scoreStage cfg sc (freshMid cfg sc doc)).antMask).getD i [] =
        goldRow (indexSelect labels (freshMid cfg sc doc).flatIdx)
          (scoreStage cfg sc (freshMid cfg sc doc)).antIdx
          (scoreStage cfg sc (freshMid cfg sc doc)).antMask i :=
      gold_antecedent_labels_getD _ _ _ hiAI
    rw [hrow, hg]
    apply row_contribution
    · rw [goldRow_length, coreferenceRow_length, hAI, antIdx_row_length hiK]
    · exact coreferenceRow_fin_mem sc _ _ _ _ _ i
    · rw [coreferenceRow_length, hAI, hAM]
      exact goldRow_good sc (freshMid cfg sc doc).topEmb
        (freshMid cfg sc doc).topScores _
        (min cfg.maxAntecedents (freshMid cfg sc doc).nKept) hiK hbp
  rw [hmap]
  rw [show (fun i => XR.fin (marginalGoldLogProb
      ((scoreStage cfg sc (freshMid cfg sc doc)).scores.getD i [])
      ((gold_antecedent_labels (indexSelect labels (freshMid cfg sc doc).flatIdx)
        (scoreStage cfg sc (freshMid cfg sc doc)).antIdx
        (scoreStage cfg sc (freshMid cfg sc doc)).antMask).getD i []))) =
      (XR.fin ∘ fun i => marginalGoldLogProb
        ((scoreStage cfg sc (freshMid cfg sc doc)).scores.getD i [])
        ((gold_antecedent_labels (indexSelect labels (freshMid cfg sc doc).flatIdx)
          (scoreStage cfg sc (freshMid cfg sc doc)).antIdx
          (scoreStage cfg sc (freshMid cfg sc doc)).antMask).getD i [])) from rfl]
  rw [← List.map_map, sumXR_fins, negXR_fin]
  rw [cleanDocSum_eq]

/-- C1 (amended): with gold labels present (and sane cluster ids) the
returned loss is exactly the negative of the sum, over all kept spans of all
batch elements, of the log of the softmax probability mass on the
gold-indicator-true slots — the log-domain restricted log-sum-exp of the
masked log-softmax rows — provided no batch element is in the clamp regime
(line 181's floor at most its valid-candidate count): line 181 is never
reassigned on the fresh path, so in the clamp regime the loss sums over floor
K score rows and carries terms beyond the kept spans
(`C1_clamp_counterexample`).  On this path every kept span's validity flag is
true (the kept mask is all-true), so the masked log-softmax masks out
nothing.  The final conjunct is the batch-level `.sum()`: the per-element
losses add up to the negated double sum. -/
theorem C1_loss_is_marginal_log_likelihood {α : Type} [Inhabited α]
    (cfg : Config) (sc : Scorers α) (docs : List (Doc α)) (get_scores : Bool)
    (hl : ∀ doc ∈ docs, doc.spanEmb.length = doc.spans.length ∧
      num_spans_to_keep cfg doc.docLen ≤ numValidSpans doc.spans ∧
      ∃ labels, doc.spanLabels = some labels ∧
      labelsBounded labels) :
    (∀ doc ∈ docs, ∃ labels, doc.spanLabels = some labels ∧
      ∃ od : OutputDict,
        forward cfg sc doc get_scores none [] false false = .output od ∧
        od.loss = some (XR.fin (-(cleanDocSum cfg sc doc labels))) ∧
        (freshMid cfg sc doc).topMask =
          List.replicate (top_span_indices cfg sc doc).length true) ∧
    sumXR (docs.map (fun doc =>
      XR.fin (-(cleanDocSum cfg sc doc (doc.spanLabels.getD []))))) =
      XR.fin (-((docs.map
        (fun doc => cleanDocSum cfg sc doc (doc.spanLabels.getD []))).sum)) := by
  constructor
  · intro doc hdoc
    obtain ⟨hembd, hKd, labels, hlab, hb⟩ := hl doc hdoc
    refine ⟨labels, hlab, freshOutput cfg sc doc get_scores,
      forward_fresh_eq cfg sc doc get_scores, ?_, ?_⟩
    · have : (freshOutput cfg sc doc get_scores).loss =
          (doc.spanLabels).map (fun l => lossStage l (freshMid cfg sc doc).flatIdx
            (scoreStage cfg sc (freshMid cfg sc doc)).antIdx
            (scoreStage cfg sc (freshMid cfg sc doc)).antMask
            (scoreStage cfg sc (freshMid cfg sc doc)).scores
            (freshMid cfg sc doc).topMask) := by
        simp [freshOutput]
      rw [this, hlab, Option.map_some']
      rw [lossStage_fresh_eq cfg sc doc labels hb hembd hKd]
    · show List.map (fun _ => true) (top_span_indices cfg sc doc) =
        List.replicate (top_span_indices cfg sc doc).length true
      exact map_const_true _
  · have : docs.map (fun doc =>
        XR.fin (-(cleanDocSum cfg sc doc (doc.spanLabels.getD [])))) =
        (docs.map (fun doc => -(cleanDocSum cfg sc doc (doc.spanLabels.getD [])))).map
          XR.fin := by
      rw [List.map_map]
      rfl
    rw [this, sumXR_fins]
    congr 1
    exact sum_map_neg_eq docs _

/-! ## C9 -/

lemma getD_mem {β : Type _} (l : List β) (d : β) {n : ℕ} (h : n < l.length) :
    l.getD n d ∈ l := by
  rw [List.getD_eq_getElem?_getD, List.getElem?_eq_getElem h]
  exact List.getElem_mem h

/-- A partition-preserving, sentinel-preserving relabeling leaves every
pairwise gold indicator bit unchanged — also on window rows beyond the kept
spans (clamp regime), where the target read defaults to the -1 sentinel and
the bit is false under either labeling. -/
lemma pairwiseGold_relabel (l1 l2 : List Int) (fi : List ℕ) {K W : ℕ}
    (hb1 : labelsBounded l1) (hb2 : labelsBounded l2)
    (hfi : ∀ n, n < fi.length → fi.getD n 0 < l1.length)
    (hsent : ∀ n, n < l1.length → (l1.getD n 0 = -1 ↔ l2.getD n 0 = -1))
    (hpart : ∀ n, n < l1.length → ∀ m, m < l1.length →
      (l1.getD n 0 = l1.getD m 0 ↔ l2.getD n 0 = l2.getD m 0))
    {i j : ℕ} (hi : i < K) (hj : j < W) :
    pairwiseGold (indexSelect l1 fi) (valid_antecedent_indices K W)
      (valid_antecedent_log_mask K W) i j =
    pairwiseGold (indexSelect l2 fi) (valid_antecedent_indices K W)
      (valid_antecedent_log_mask K W) i j := by
  have ha : ((valid_antecedent_indices K W).getD i []).getD j 0 =
      antecedentIndexAt i j := antIdx_getD hi hj
  by_cases hiF : i < fi.length
  · have haF : antecedentIndexAt i j < fi.length := by
      rw [antecedentIndexAt]
      omega
    have hp1i : (indexSelect l1 fi).getD i (-1) = l1.getD (fi.getD i 0) 0 := by
      rw [indexSelect, getD_map_lt _ _ _ 0 hiF]
    have hp2i : (indexSelect l2 fi).getD i (-1) = l2.getD (fi.getD i 0) 0 := by
      rw [indexSelect, getD_map_lt _ _ _ 0 hiF]
    have hp1a : (indexSelect l1 fi).getD (antecedentIndexAt i j) (-1) =
        l1.getD (fi.getD (antecedentIndexAt i j) 0) 0 := by
      rw [indexSelect, getD_map_lt _ _ _ 0 haF]
    have hp2a : (indexSelect l2 fi).getD (antecedentIndexAt i j) (-1) =
        l2.getD (fi.getD (antecedentIndexAt i j) 0) 0 := by
      rw [indexSelect, getD_map_lt _ _ _ 0 haF]
    have hni : fi.getD i 0 < l1.length := hfi i hiF
    have hna : fi.getD (antecedentIndexAt i j) 0 < l1.length := hfi _ haF
    by_cases hmask : validAntecedentBool i j = true
    · rw [pairwiseGold, pairwiseGold, antecedent_labels, antecedent_labels,
        antMask_getD hi hj, hmask, if_pos rfl, ha, hp1i, hp2i, hp1a, hp2a]
      have hw1 : wrap64 (l1.getD (fi.getD (antecedentIndexAt i j) 0) 0 + 0) =
          l1.getD (fi.getD (antecedentIndexAt i j) 0) 0 := by
        rw [add_zero]
        have := labels_getD_bounded l1 hb1 (fi.getD (antecedentIndexAt i j) 0)
        exact wrap64_id _ (by omega) (by omega)
      have hw2 : wrap64 (l2.getD (fi.getD (antecedentIndexAt i j) 0) 0 + 0) =
          l2.getD (fi.getD (antecedentIndexAt i j) 0) 0 := by
        rw [add_zero]
        have := labels_getD_bounded l2 hb2 (fi.getD (antecedentIndexAt i j) 0)
        exact wrap64_id _ (by omega) (by omega)
      rw [hw1, hw2]
      have heq : (decide (l1.getD (fi.getD i 0) 0 =
          l1.getD (fi.getD (antecedentIndexAt i j) 0) 0)) =
          (decide (l2.getD (fi.getD i 0) 0 =
            l2.getD (fi.getD (antecedentIndexAt i j) 0) 0)) :=
        decide_eq_decide.mpr (hpart _ hni _ hna)
      have hge : (decide (0 ≤ l1.getD (fi.getD i 0) 0)) =
          (decide (0 ≤ l2.getD (fi.getD i 0) 0)) := by
        apply decide_eq_decide.mpr
        have hs := hsent _ hni
        have h1 := (labels_getD_bounded l1 hb1 (fi.getD i 0)).1
        have h2 := (labels_getD_bounded l2 hb2 (fi.getD i 0)).1
        omega
      rw [heq, hge]
    · have hfalse : ∀ l : List Int, labelsBounded l →
          pairwiseGold (indexSelect l fi) (valid_antecedent_indices K W)
            (valid_antecedent_log_mask K W) i j = false := by
        intro l hb
        rw [pairwiseGold, antecedent_labels, antMask_getD hi hj, if_neg hmask]
        by_cases h0 : 0 ≤ (indexSelect l fi).getD i (-1)
        · have hbi := indexSelect_getD_bounded l fi hb i
          have hba := indexSelect_getD_bounded l fi hb
            (((valid_antecedent_indices K W).getD i []).getD j 0)
          have hne := wrap64_shift_ne _ _ hbi.2 (hba).1 (hba).2 h0
          rw [decide_eq_false hne, Bool.false_and]
        · rw [decide_eq_false h0, Bool.and_false]
      rw [hfalse l1 hb1, hfalse l2 hb2]
  · have hd : ∀ l : List Int, (indexSelect l fi).getD i (-1) = -1 := by
      intro l
      apply List.getD_eq_default
      rw [indexSelect, List.length_map]
      omega
    rw [pairwiseGold, pairwiseGold, hd l1, hd l2]
    simp

/-- C9: with the scores fixed, a relabeling of gold cluster ids that
preserves the induced partition and keeps the -1 sentinel fixed yields
exactly the same loss. -/
theorem C9_loss_relabel_invariance {α : Type} [Inhabited α] (cfg : Config)
    (sc : Scorers α) (doc : Doc α) (l1 l2 : List Int) (get_scores : Bool)
    (hb1 : labelsBounded l1) (hb2 : labelsBounded l2)
    (hlen1 : l1.length = doc.spans.length)
    (hlen2 : l2.length = doc.spans.length)
    (hemb : doc.spanEmb.length = doc.spans.length)
    (hsent : ∀ n, n < l1.length → (l1.getD n 0 = -1 ↔ l2.getD n 0 = -1))
    (hpart : ∀ n, n < l1.length → ∀ m, m < l1.length →
      (l1.getD n 0 = l1.getD m 0 ↔ l2.getD n 0 = l2.getD m 0)) :
    ∃ od1 od2 : OutputDict,
      forward cfg sc { doc with spanLabels := some l1 } get_scores none []
        false false = .output od1 ∧
      forward cfg sc { doc with spanLabels := some l2 } get_scores none []
        false false = .output od2 ∧
      od1.loss = od2.loss := by
  refine ⟨freshOutput cfg sc { doc with spanLabels := some l1 } get_scores,
    freshOutput cfg sc { doc with spanLabels := some l2 } get_scores,
    forward_fresh_eq cfg sc _ get_scores, forward_fresh_eq cfg sc _ get_scores, ?_⟩
  have hmid1 : freshMid cfg sc { doc with spanLabels := some l1 } =
      freshMid cfg sc { doc with spanLabels := some l2 } := rfl
  have hfi : ∀ n, n < (freshMid cfg sc { doc with spanLabels := some l1 }).flatIdx.length →
      (freshMid cfg sc { doc with spanLabels := some l1 }).flatIdx.getD n 0 < l1.length := by
    intro n hn
    have hmem : (freshMid cfg sc { doc with spanLabels := some l1 }).flatIdx.getD n 0 ∈
        (freshMid cfg sc { doc with spanLabels := some l1 }).flatIdx :=
      getD_mem _ 0 hn
    have := (prunerTopIndices_mem _ _ _ hmem).1
    rw [span_mention_scores, List.length_map] at this
    have hsame : (freshMid cfg sc { doc with spanLabels := some l1 }).flatIdx.getD n 0 <
        doc.spanEmb.length := this
    omega
  obtain ⟨K, hKdef⟩ : ∃ K, K = (freshMid cfg sc { doc with spanLabels := some l1 }).nKept :=
    ⟨_, rfl⟩
  have hgold : gold_antecedent_labels
      (indexSelect l1 (freshMid cfg sc { doc with spanLabels := some l1 }).flatIdx)
      (scoreStage cfg sc (freshMid cfg sc { doc with spanLabels := some l1 })).antIdx
      (scoreStage cfg sc (freshMid cfg sc { doc with spanLabels := some l1 })).antMask =
      gold_antecedent_labels
        (indexSelect l2 (freshMid cfg sc { doc with spanLabels := some l1 }).flatIdx)
        (scoreStage cfg sc (freshMid cfg sc { doc with spanLabels := some l1 })).antIdx
        (scoreStage cfg sc (freshMid cfg sc { doc with spanLabels := some l1 })).antMask := by
    have hAI : (scoreStage cfg sc (freshMid cfg sc { doc with spanLabels := some l1 })).antIdx =
        valid_antecedent_indices
          (freshMid cfg sc { doc with spanLabels := some l1 }).nKept
          (min cfg.maxAntecedents
            (freshMid cfg sc { doc with spanLabels := some l1 }).nKept) := by
      simp [scoreStage]
    have hAM : (scoreStage cfg sc (freshMid cfg sc { doc with spanLabels := some l1 })).antMask =
        valid_antecedent_log_mask
          (freshMid cfg sc { doc with spanLabels := some l1 }).nKept
          (min cfg.maxAntecedents
            (freshMid cfg sc { doc with spanLabels := some l1 }).nKept) := by
      simp [scoreStage]
    rw [hAI, hAM, gold_antecedent_labels, gold_antecedent_labels]
    apply List.map_congr_left
    intro i hi
    have hiK : i < (freshMid cfg sc { doc with spanLabels := some l1 }).nKept := by
      have := List.mem_range.mp hi
      rw [valid_antecedent_indices] at this
      simpa using this
    simp only [goldRow]
    have hrl : ((valid_antecedent_indices
        (freshMid cfg sc { doc with spanLabels := some l1 }).nKept
        (min cfg.maxAntecedents
          (freshMid cfg sc { doc with spanLabels := some l1 }).nKept)).getD i []).length =
        min cfg.maxAntecedents (freshMid cfg sc { doc with spanLabels := some l1 }).nKept :=
      antIdx_row_length hiK
    rw [hrl]
    have hpw : ∀ j ∈ List.range (min cfg.maxAntecedents
        (freshMid cfg sc { doc with spanLabels := some l1 }).nKept),
        pairwiseGold (indexSelect l1 (freshMid cfg sc { doc with spanLabels := some l1 }).flatIdx)
          (valid_antecedent_indices (freshMid cfg sc { doc with spanLabels := some l1 }).nKept
            (min cfg.maxAntecedents (freshMid cfg sc { doc with spanLabels := some l1 }).nKept))
          (valid_antecedent_log_mask (freshMid cfg sc { doc with spanLabels := some l1 }).nKept
            (min cfg.maxAntecedents (freshMid cfg sc { doc with spanLabels := some l1 }).nKept)) i j =
        pairwiseGold (indexSelect l2 (freshMid cfg sc { doc with spanLabels := some l1 }).flatIdx)
          (valid_antecedent_indices (freshMid cfg sc { doc with spanLabels := some l1 }).nKept
            (min cfg.maxAntecedents (freshMid cfg sc { doc with spanLabels := some l1 }).nKept))
          (valid_antecedent_log_mask (freshMid cfg sc { doc with spanLabels := some l1 }).nKept
            (min cfg.maxAntecedents (freshMid cfg sc { doc with spanLabels := some l1 }).nKept)) i j := by
      intro j hj
      exact pairwiseGold_relabel l1 l2 _ hb1 hb2 hfi hsent hpart
        hiK (List.mem_range.mp hj)
    rw [List.map_congr_left hpw]
  have h1 : (freshOutput cfg sc { doc with spanLabels := some l1 } get_scores).loss =
      some (lossStage l1 (freshMid cfg sc { doc with spanLabels := some l1 }).flatIdx
        (scoreStage cfg sc (freshMid cfg sc { doc with spanLabels := some l1 })).antIdx
        (scoreStage cfg sc (freshMid cfg sc { doc with spanLabels := some l1 })).antMask
        (scoreStage cfg sc (freshMid cfg sc { doc with spanLabels := some l1 })).scores
        (freshMid cfg sc { doc with spanLabels := some l1 }).topMask) := by
    simp [freshOutput]
  have h2 : (freshOutput cfg sc { doc with spanLabels := some l2 } get_scores).loss =
      some (lossStage l2 (freshMid cfg sc { doc with spanLabels := some l1 }).flatIdx
        (scoreStage cfg sc (freshMid cfg sc { doc with spanLabels := some l1 })).antIdx
        (scoreStage cfg sc (freshMid cfg sc { doc with spanLabels := some l1 })).antMask
        (scoreStage cfg sc (freshMid cfg sc { doc with spanLabels := some l1 })).scores
        (freshMid cfg sc { doc with spanLabels := some l1 }).topMask) := by
    have hh : (freshOutput cfg sc { doc with spanLabels := some l2 } get_scores).loss =
        some (lossStage l2 (freshMid cfg sc { doc with spanLabels := some l2 }).flatIdx
          (scoreStage cfg sc (freshMid cfg sc { doc with spanLabels := some l2 })).antIdx
          (scoreStage cfg sc (freshMid cfg sc { doc with spanLabels := some l2 })).antMask
          (scoreStage cfg sc (freshMid cfg sc { doc with spanLabels := some l2 })).scores
          (freshMid cfg sc { doc with spanLabels := some l2 }).topMask) := by
      simp [freshOutput]
    rw [hh, ← hmid1]
  rw [h1, h2]
  simp only [lossStage]
  rw [hgold]

/-! ## C4 -/

/-- At every kept index the clamped span equals the original span: kept
indices have mask true (start ≥ 0), and well-formed spans with start ≥ 0 also
have end ≥ 0, so `F.relu` is the identity there. -/
lemma selectSpans_clamp_eq {α : Type} [Inhabited α] (cfg : Config)
    (sc : Scorers α) (doc : Doc α)
    (hemb : doc.spanEmb.length = doc.spans.length) (hwf : wfSpans doc.spans) :
    selectSpans (clampSpans doc.spans) (top_span_indices cfg sc doc) =
      selectSpans doc.spans (top_span_indices cfg sc doc) := by
  rw [selectSpans, selectSpans]
  apply List.map_congr_left
  intro i hi
  obtain ⟨hilt, hmask⟩ := prunerTopIndices_mem _ _ _ hi
  have hisp : i < doc.spans.length := by
    rw [span_mention_scores, List.length_map, hemb] at hilt
    exact hilt
  rw [span_mask, getD_map_lt _ _ _ (0, 0) hisp, decide_eq_true_eq] at hmask
  rw [clampSpans, getD_map_lt _ _ _ (0, 0) hisp]
  have hp := hwf _ (getD_mem doc.spans (0, 0) hisp)
  rcases hp with ⟨h1, h2⟩ | ⟨h1, _⟩
  · have he : (0 : Int) ≤ (doc.spans.getD i (0, 0)).2 := le_trans h1 h2
    rw [max_eq_left h1, max_eq_left he]
  · omega

/-- C4 (amended): a forward call supplied with the very pruning state the
fresh path computes (via `top_spans_info`) returns exactly what the fresh
end-to-end call returns — same top spans, coreference scores, predicted
antecedents and loss — outside the clamp regime (hypothesis `hK`).  Two code
differences exist on this path: the caller's `spans` are used unclamped
(invisible because kept spans are valid and well-formed), and line 211
rebinds `num_spans_to_keep` to the kept count while line 181's floor stays
live on the fresh path, so in the clamp regime the two calls build
different-sized windows and differ (`C4_clamp_counterexample`). -/
theorem C4_precomputed_pruning_equivalence {α : Type} [Inhabited α]
    (cfg : Config) (sc : Scorers α) (doc : Doc α) (get_scores : Bool)
    (hemb : doc.spanEmb.length = doc.spans.length) (hwf : wfSpans doc.spans)
    (hK : num_spans_to_keep cfg doc.docLen ≤ numValidSpans doc.spans) :
    forward cfg sc doc get_scores (some (freshTopSpansInfo cfg sc doc)) []
        false false =
      forward cfg sc doc get_scores none [] false false := by
  have hnk := nstk_eq_topIdx_length cfg sc doc hemb hK
  have hmid : infoMid doc (freshTopSpansInfo cfg sc doc) =
      { freshMid cfg sc doc with spansUsed := doc.spans } := by
    simp only [infoMid, freshTopSpansInfo, freshMid, keptScores, keptEmbeddings]
    congr 1
    rw [List.length_map, hnk]
  have hscore : scoreStage cfg sc { freshMid cfg sc doc with spansUsed := doc.spans } =
      scoreStage cfg sc (freshMid cfg sc doc) := by
    simp only [scoreStage]
    congr 1
    show selectSpans doc.spans (top_span_indices cfg sc doc) =
      selectSpans (clampSpans doc.spans) (top_span_indices cfg sc doc)
    exact (selectSpans_clamp_eq cfg sc doc hemb hwf).symm
  rw [forward.eq_def, forward.eq_def]
  simp only [List.isEmpty_nil, if_true]
  rw [hmid]
  rw [forwardAfterMid, forwardAfterMid]
  simp only [Bool.false_eq_true, if_false, Bool.or_false]
  rw [hscore]

/-! ## The clamp regime on a concrete input

`clampDoc` with `witCfg` (or `clampCfg2`): the line-181 floor K = 2 exceeds
the single valid candidate, the spec-modelled pruner keeps one span, and the
never-reassigned `num_spans_to_keep` shapes every downstream tensor with two
rows. -/

lemma clamp_pruner : prunerTopIndices [0, 0] [true, false] 2 = [0] := by
  rw [prunerTopIndices]
  rw [show (List.range ([(0 : ℚ), 0]).length).filter
      (fun i => [true, false].getD i false) = [0] by decide]
  rw [List.mergeSort_singleton, show ([0] : List ℕ).take 2 = [0] from rfl,
    List.mergeSort_singleton]

lemma clamp_topIdx (cfg : Config) (h : cfg.spansPerWord = 1) :
    top_span_indices cfg clampSc clampDoc = [0] := by
  rw [top_span_indices, num_spans_to_keep_of_one cfg h]
  exact clamp_pruner

lemma clamp_nKept : (freshMid witCfg clampSc clampDoc).nKept = 2 := by
  show num_spans_to_keep witCfg clampDoc.docLen = 2
  rw [num_spans_to_keep_of_one witCfg rfl]
  rfl

lemma clamp_flatIdx : (freshMid witCfg clampSc clampDoc).flatIdx = [0] := by
  show top_span_indices witCfg clampSc clampDoc = [0]
  exact clamp_topIdx witCfg rfl

lemma clamp_topMask : (freshMid witCfg clampSc clampDoc).topMask = [true] := by
  show (top_span_indices witCfg clampSc clampDoc).map (fun _ => true) = [true]
  rw [clamp_topIdx witCfg rfl]
  rfl

lemma clamp_topScores : (freshMid witCfg clampSc clampDoc).topScores = [0] := by
  show keptScores (span_mention_scores clampSc clampDoc.spanEmb)
    (top_span_indices witCfg clampSc clampDoc) = [0]
  rw [clamp_topIdx witCfg rfl]
  rfl

lemma clamp_topEmb : (freshMid witCfg clampSc clampDoc).topEmb = [0] := by
  show keptEmbeddings clampDoc.spanEmb (top_span_indices witCfg clampSc clampDoc) = [0]
  rw [clamp_topIdx witCfg rfl]
  rfl

lemma clamp_antIdx :
    (scoreStage witCfg clampSc (freshMid witCfg clampSc clampDoc)).antIdx =
      [[0], [0]] := by
  have h : (scoreStage witCfg clampSc (freshMid witCfg clampSc clampDoc)).antIdx =
      valid_antecedent_indices (freshMid witCfg clampSc clampDoc).nKept
        (min witCfg.maxAntecedents (freshMid witCfg clampSc clampDoc).nKept) := by
    simp [scoreStage]
  rw [h, clamp_nKept]
  decide

lemma clamp_antMask :
    (scoreStage witCfg clampSc (freshMid witCfg clampSc clampDoc)).antMask =
      [[false], [true]] := by
  have h : (scoreStage witCfg clampSc (freshMid witCfg clampSc clampDoc)).antMask =
      valid_antecedent_log_mask (freshMid witCfg clampSc clampDoc).nKept
        (min witCfg.maxAntecedents (freshMid witCfg clampSc clampDoc).nKept) := by
    simp [scoreStage]
  rw [h, clamp_nKept]
  decide

lemma clamp_scores :
    (scoreStage witCfg clampSc (freshMid witCfg clampSc clampDoc)).scores =
      [[(0 : WithBot ℚ), ⊥], [(0 : WithBot ℚ), ((0 : ℚ) : WithBot ℚ)]] := by
  have h : (scoreStage witCfg clampSc (freshMid witCfg clampSc clampDoc)).scores =
      coreference_scores clampSc (freshMid witCfg clampSc clampDoc).topEmb
        (freshMid witCfg clampSc clampDoc).topScores
        (valid_antecedent_indices (freshMid witCfg clampSc clampDoc).nKept
          (min witCfg.maxAntecedents (freshMid witCfg clampSc clampDoc).nKept))
        (valid_antecedent_log_mask (freshMid witCfg clampSc clampDoc).nKept
          (min witCfg.maxAntecedents (freshMid witCfg clampSc clampDoc).nKept))
        (freshMid witCfg clampSc clampDoc).nKept
        (min witCfg.maxAntecedents (freshMid witCfg clampSc clampDoc).nKept) := by
    simp [scoreStage]
  rw [h, clamp_nKept, clamp_topEmb, clamp_topScores]
  simp [coreference_scores, coreferenceRow, antecedentScore,
    valid_antecedent_indices, valid_antecedent_log_mask, validAntecedentBool,
    rawAntecedentIndex, antecedentIndexAt, antecedentOffset, clampSc, witCfg,
    List.range_succ]

lemma clamp_gold :
    gold_antecedent_labels (indexSelect [0, -1] [0]) [[0], [0]]
      [[false], [true]] = [[true, false], [true, false]] := by
  decide

lemma mglp_clamp_row0 :
    marginalGoldLogProb [(0 : WithBot ℚ), ⊥] [true, false] = 0 := by
  rw [marginalGoldLogProb]
  rw [show ((List.range ([(0 : WithBot ℚ), ⊥]).length).filter
      (fun j => [true, false].getD j false)) = [0] by decide]
  rw [List.map_cons, List.map_nil, List.sum_cons, List.sum_nil, add_zero]
  rw [show softmaxProb [(0 : WithBot ℚ), ⊥] 0 =
      XR.exp (scoreXR (0 : WithBot ℚ)) /
        (XR.exp (scoreXR (0 : WithBot ℚ)) +
          (XR.exp (scoreXR (⊥ : WithBot ℚ)) + 0)) from rfl]
  rw [scoreXR_zero, scoreXR_bot, xr_exp_fin, xr_exp_ninf, Real.exp_zero]
  norm_num

lemma mglp_clamp_row1 :
    marginalGoldLogProb [(0 : WithBot ℚ), ((0 : ℚ) : WithBot ℚ)] [true, false] =
      -Real.log 2 := by
  rw [marginalGoldLogProb]
  rw [show ((List.range ([(0 : WithBot ℚ), ((0 : ℚ) : WithBot ℚ)]).length).filter
      (fun j => [true, false].getD j false)) = [0] by decide]
  rw [List.map_cons, List.map_nil, List.sum_cons, List.sum_nil, add_zero]
  rw [show softmaxProb [(0 : WithBot ℚ), ((0 : ℚ) : WithBot ℚ)] 0 =
      XR.exp (scoreXR (0 : WithBot ℚ)) /
        (XR.exp (scoreXR (0 : WithBot ℚ)) +
          (XR.exp (scoreXR (((0 : ℚ) : WithBot ℚ))) + 0)) from rfl]
  rw [scoreXR_zero, scoreXR_coe, xr_exp_fin, xr_exp_fin, Real.exp_zero]
  rw [show (((0 : ℚ) : ℝ)) = (0 : ℝ) by norm_num, Real.exp_zero]
  rw [show (1 : ℝ) / (1 + (1 + 0)) = 2⁻¹ by norm_num, Real.log_inv]

lemma clamp_loss :
    lossStage [0, -1] [0] [[0], [0]] [[false], [true]]
      [[(0 : WithBot ℚ), ⊥], [(0 : WithBot ℚ), ((0 : ℚ) : WithBot ℚ)]] [true] =
      XR.fin (Real.log 2) := by
  rw [lossStage]
  show negative_marginal_log_likelihood
      [[(0 : WithBot ℚ), ⊥], [(0 : WithBot ℚ), ((0 : ℚ) : WithBot ℚ)]] [true]
      (gold_antecedent_labels (indexSelect [0, -1] [0]) [[0], [0]]
        [[false], [true]]) = XR.fin (Real.log 2)
  rw [clamp_gold, negative_marginal_log_likelihood]
  have hr0 : utilLogsumexp (correctRowLogProbs [(0 : WithBot ℚ), ⊥] true
      [true, false]) = XR.fin (marginalGoldLogProb [(0 : WithBot ℚ), ⊥]
        [true, false]) := by
    apply row_contribution
    · rfl
    · exact ⟨0, by rw [WithBot.coe_zero]; exact List.mem_cons_self _ _⟩
    · refine ⟨0, by norm_num, rfl, ?_⟩
      rw [List.getD_cons_zero, ← WithBot.coe_zero]
      exact WithBot.coe_ne_bot
  have hr1 : utilLogsumexp (correctRowLogProbs
      [(0 : WithBot ℚ), ((0 : ℚ) : WithBot ℚ)] false [true, false]) =
      XR.fin (marginalGoldLogProb [(0 : WithBot ℚ), ((0 : ℚ) : WithBot ℚ)]
        [true, false]) := by
    apply row_contribution
    · rfl
    · exact ⟨0, by rw [WithBot.coe_zero]; exact List.mem_cons_self _ _⟩
    · refine ⟨0, by norm_num, rfl, ?_⟩
      rw [List.getD_cons_zero, ← WithBot.coe_zero]
      exact WithBot.coe_ne_bot
  rw [show (List.range (([[(0 : WithBot ℚ), ⊥],
      [(0 : WithBot ℚ), ((0 : ℚ) : WithBot ℚ)]] :
      List (List (WithBot ℚ))).length)) = [0, 1] by decide]
  rw [List.map_cons, List.map_cons, List.map_nil]
  simp only [List.getD_cons_zero, List.getD_cons_succ, List.getD_nil]
  rw [hr0, hr1, mglp_clamp_row0, mglp_clamp_row1]
  show XR.fin (-((0 + 0) + -Real.log 2)) = XR.fin (Real.log 2)
  exact congrArg XR.fin (by ring)

/-- C1 counterexample: in the clamp regime the returned loss carries a term
for the phantom second score row (here `-log 2`, total loss `log 2`), while
the sum over the kept spans is 0 — the loss is not the per-kept-span marginal
log-likelihood sum the claim (and spec §4.5/§4.6) states. -/
theorem C1_clamp_counterexample :
    ∃ od : OutputDict,
      forward witCfg clampSc clampDoc false none [] false false = .output od ∧
      od.loss = some (XR.fin (Real.log 2)) ∧
      cleanDocSum witCfg clampSc clampDoc [0, -1] = 0 ∧
      od.loss ≠ some (XR.fin (-(cleanDocSum witCfg clampSc clampDoc [0, -1]))) := by
  have hloss : (freshOutput witCfg clampSc clampDoc false).loss =
      some (XR.fin (Real.log 2)) := by
    have hl : (freshOutput witCfg clampSc clampDoc false).loss =
        clampDoc.spanLabels.map (fun labels =>
          lossStage labels (freshMid witCfg clampSc clampDoc).flatIdx
            (scoreStage witCfg clampSc (freshMid witCfg clampSc clampDoc)).antIdx
            (scoreStage witCfg clampSc (freshMid witCfg clampSc clampDoc)).antMask
            (scoreStage witCfg clampSc (freshMid witCfg clampSc clampDoc)).scores
            (freshMid witCfg clampSc clampDoc).topMask) := by
      simp [freshOutput]
    rw [hl, show clampDoc.spanLabels = some [0, -1] from rfl, Option.map_some']
    rw [clamp_flatIdx, clamp_antIdx, clamp_antMask, clamp_scores, clamp_topMask,
      clamp_loss]
  have hclean : cleanDocSum witCfg clampSc clampDoc [0, -1] = 0 := by
    rw [cleanDocSum_eq, clamp_topIdx witCfg rfl]
    rw [show (List.range (([0] : List ℕ).length)) = [0] by decide]
    rw [List.map_cons, List.map_nil, List.sum_cons, List.sum_nil, add_zero]
    rw [clamp_scores, clamp_flatIdx, clamp_antIdx, clamp_antMask, clamp_gold]
    rw [List.getD_cons_zero, List.getD_cons_zero]
    exact mglp_clamp_row0
  refine ⟨freshOutput witCfg clampSc clampDoc false,
    forward_fresh_eq witCfg clampSc clampDoc false, hloss, hclean, ?_⟩
  rw [hloss, hclean, neg_zero]
  intro hcontra
  have h2 : Real.log 2 = 0 := XR.fin_inj (Option.some.inj hcontra)
  have h3 : (0 : ℝ) < Real.log 2 := Real.log_pos one_lt_two
  linarith

/-- C2 counterexample: in the clamp regime `predicted_antecedents` has one
row per line-181 floor (2), not one per kept span (1). -/
theorem C2_shape_counterexample :
    ∃ od : OutputDict,
      forward witCfg clampSc clampDoc false none [] false false = .output od ∧
      (top_span_indices witCfg clampSc clampDoc).length = 1 ∧
      od.predicted_antecedents.length = 2 ∧
      od.predicted_antecedents.length ≠
        (top_span_indices witCfg clampSc clampDoc).length := by
  refine ⟨freshOutput witCfg clampSc clampDoc false,
    forward_fresh_eq witCfg clampSc clampDoc false, ?_, ?_, ?_⟩
  · rw [clamp_topIdx witCfg rfl]
    rfl
  · rw [freshOutput_preds_length, num_spans_to_keep_of_one witCfg rfl]
    rfl
  · rw [freshOutput_preds_length, num_spans_to_keep_of_one witCfg rfl,
      clamp_topIdx witCfg rfl]
    decide

/-- C4 counterexample: in the clamp regime, feeding the fresh path's own
pruning state back through `top_spans_info` does not reproduce the fresh
call: line 211 rebinds `num_spans_to_keep` to the kept count (1) on the
precomputed path while the fresh path keeps line 181's floor (2), so the two
calls return different-shaped outputs. -/
theorem C4_clamp_counterexample :
    forward witCfg clampSc clampDoc false
        (some (freshTopSpansInfo witCfg clampSc clampDoc)) [] false false ≠
      forward witCfg clampSc clampDoc false none [] false false := by
  intro h
  rw [forward_info_eq, forward_fresh_eq] at h
  injection h with h2
  have hlen := congrArg (fun od : OutputDict => od.predicted_antecedents.length) h2
  have hinfo : (infoOutput witCfg clampSc clampDoc
      (freshTopSpansInfo witCfg clampSc clampDoc)
        false).predicted_antecedents.length =
      (top_span_indices witCfg clampSc clampDoc).length := by
    have h3 : (infoOutput witCfg clampSc clampDoc
        (freshTopSpansInfo witCfg clampSc clampDoc)
          false).predicted_antecedents.length =
        (freshTopSpansInfo witCfg clampSc clampDoc).top_scores.length := by
      simp [infoOutput, scoreStage, predicted_antecedents, coreference_scores,
        infoMid]
    rw [h3]
    show (keptScores (span_mention_scores clampSc clampDoc.spanEmb)
      (top_span_indices witCfg clampSc clampDoc)).length = _
    rw [keptScores, List.length_map]
  have hfresh := freshOutput_preds_length witCfg clampSc clampDoc false
  rw [clamp_topIdx witCfg rfl] at hinfo
  rw [num_spans_to_keep_of_one witCfg rfl] at hfresh
  simp only [hinfo, hfresh] at hlen
  exact absurd hlen (by decide)

/-- C6 counterexample: in the clamp regime the call does not gracefully
produce fewer than K kept spans: next to the clamped `top_spans` (one row)
the same output dictionary carries floor-K (two) predicted-antecedent rows —
more rows than valid candidates. -/
theorem C6_clamp_counterexample :
    numValidSpans clampDoc.spans = 1 ∧
    ∃ od : OutputDict,
      forward witCfg clampSc clampDoc false none [] false false = .output od ∧
      od.top_spans.length = 1 ∧
      od.predicted_antecedents.length = 2 := by
  refine ⟨by decide, freshOutput witCfg clampSc clampDoc false,
    forward_fresh_eq witCfg clampSc clampDoc false, ?_, ?_⟩
  · rw [freshOutput_top_spans, selectSpans, clamp_topIdx witCfg rfl]
    rfl
  · rw [freshOutput_preds_length, num_spans_to_keep_of_one witCfg rfl]
    rfl

/-- C7 counterexample: with `max_antecedents = 2` in the clamp regime, every
window row has `min(max_antecedents, line-181 floor) = 2` columns — more
columns than the single kept span, contradicting the claimed
`min(max_antecedents, kept count)` width. -/
theorem C7_width_counterexample :
    ∃ od : OutputDict,
      forward clampCfg2 clampSc clampDoc false none [] false false = .output od ∧
      (top_span_indices clampCfg2 clampSc clampDoc).length = 1 ∧
      od.antecedent_indices = [[0, 0], [0, 0]] ∧
      ∀ r ∈ od.antecedent_indices,
        (top_span_indices clampCfg2 clampSc clampDoc).length < r.length := by
  have hA : (freshOutput clampCfg2 clampSc clampDoc false).antecedent_indices =
      [[0, 0], [0, 0]] := by
    rw [freshOutput_antIdx, num_spans_to_keep_of_one clampCfg2 rfl]
    decide
  refine ⟨freshOutput clampCfg2 clampSc clampDoc false,
    forward_fresh_eq clampCfg2 clampSc clampDoc false, ?_, hA, ?_⟩
  · rw [clamp_topIdx clampCfg2 rfl]
    rfl
  · intro r hr
    rw [hA] at hr
    rw [clamp_topIdx clampCfg2 rfl]
    simp only [List.mem_cons, List.not_mem_nil, or_false] at hr
    rcases hr with rfl | rfl <;> decide

/-! ## C3 -/

/-- C3 (code bug): the resumable state a `return_coref_scores=True` call
returns stores the antecedent log-mask under the key `ant_mask` (line 284),
but the consuming path reads `coref_scores_info['valid_antecedent_log_mask']`
(line 290); feeding the returned state back verbatim therefore raises
`KeyError` before any prediction or loss is computed, instead of reproducing
the fresh call's outputs as the spec demands. -/
theorem C3_roundtrip_raises_key_error {α : Type} [Inhabited α] (cfg : Config)
    (sc : Scorers α) (doc doc2 : Doc α) (gs gs2 : Bool)
    (tsi : Option (TopSpansInfo α)) (rv : InfoDict)
    (h : forward cfg sc doc gs tsi [] false true = .scoresState rv) :
    forward cfg sc doc2 gs2 none rv false false =
      .keyError "valid_antecedent_log_mask" := by
  have hrv : ∃ od₀ ti fi tm am,
      rv = [("output_dict", InfoVal.outDict od₀),
            ("top_span_inds", InfoVal.indsPair ti fi),
            ("top_span_mask", InfoVal.boolMask tm),
            ("ant_mask", InfoVal.antMask am)] := by
    cases tsi with
    | none =>
        rw [forward.eq_def] at h
        simp only [List.isEmpty_nil, if_true, Bool.false_eq_true, if_false] at h
        rw [forwardAfterMid] at h
        simp only [if_true] at h
        injection h with h2
        exact ⟨_, _, _, _, _, h2.symm⟩
    | some info =>
        rw [forward.eq_def] at h
        simp only [List.isEmpty_nil, if_true] at h
        rw [forwardAfterMid] at h
        simp only [if_true] at h
        injection h with h2
        exact ⟨_, _, _, _, _, h2.symm⟩
  obtain ⟨od₀, ti, fi, tm, am, rfl⟩ := hrv
  rw [forward.eq_def]
  simp only [List.isEmpty_cons, Bool.false_eq_true, if_false]
  rw [forwardFromScores]
  rfl

/-- Witness for C3 at a concrete input: on the empty document the first call
returns `witRV` (whose fourth key is `ant_mask`), and feeding `witRV` back
raises the `KeyError`. -/
theorem C3_roundtrip_raises_key_error_witness :
    forward witCfg witSc witEmptyDoc false none [] false true =
      .scoresState witRV ∧
    forward witCfg witSc witEmptyDoc false none witRV false false =
      .keyError "valid_antecedent_log_mask" := by
  have h1 : forward witCfg witSc witEmptyDoc false none [] false true =
      .scoresState witRV := by
    rw [forward.eq_def]
    simp [forwardAfterMid, freshMid, scoreStage, top_span_indices,
      prunerTopIndices, span_mention_scores, span_mask, clampSpans, keptScores,
      keptEmbeddings, selectSpans, coreference_scores, predicted_antecedents,
      valid_antecedent_indices, valid_antecedent_log_mask, witCfg, witSc,
      witEmptyDoc, witRV, num_spans_to_keep_of_one]
  exact ⟨h1, C3_roundtrip_raises_key_error witCfg witSc witEmptyDoc witEmptyDoc
    false false none witRV h1⟩

/-! ## Concrete witnesses -/

/-- Witness for C1: on a concrete labelled document the fresh call returns
the clean marginal log-likelihood loss. -/
theorem C1_loss_is_marginal_log_likelihood_witness :
    ∃ labels, witDoc.spanLabels = some labels ∧
      ∃ od : OutputDict,
        forward witCfg witScN witDoc false none [] false false = .output od ∧
        od.loss = some (XR.fin (-(cleanDocSum witCfg witScN witDoc labels))) ∧
        (freshMid witCfg witScN witDoc).topMask =
          List.replicate (top_span_indices witCfg witScN witDoc).length true := by
  have h := C1_loss_is_marginal_log_likelihood witCfg witScN [witDoc] false ?_
  · exact h.1 witDoc (List.mem_cons_self _ _)
  · intro doc hdoc
    rw [List.mem_singleton] at hdoc
    subst hdoc
    refine ⟨rfl, ?_, [1, -1, 1, -1], rfl, by unfold labelsBounded; decide⟩
    rw [num_spans_to_keep_of_one witCfg rfl]
    decide

/-- Witness for C2 at a concrete input. -/
theorem C2_predicted_antecedents_argmax_witness :
    ∃ od : OutputDict,
      forward witCfg witScN witDoc false none [] false false = .output od ∧
      od.predicted_antecedents.length =
        (top_span_indices witCfg witScN witDoc).length ∧
      ∀ i, i < od.predicted_antecedents.length →
        ∃ s : ℕ,
          firstArgmax ((scoreStage witCfg witScN
            (freshMid witCfg witScN witDoc)).scores.getD i []) s ∧
          od.predicted_antecedents.getD i 0 = (s : Int) - 1 ∧
          (od.predicted_antecedents.getD i 0 = -1 ↔ s = 0) :=
  C2_predicted_antecedents_argmax witCfg witScN witDoc false rfl
    (by rw [num_spans_to_keep_of_one witCfg rfl]; decide)

/-- Witness for C3 is `C3_roundtrip_raises_key_error_witness` above. -/
theorem C4_precomputed_pruning_equivalence_witness :
    forward witCfg witScN witDoc false
        (some (freshTopSpansInfo witCfg witScN witDoc)) [] false false =
      forward witCfg witScN witDoc false none [] false false :=
  C4_precomputed_pruning_equivalence witCfg witScN witDoc false (by decide)
    (by unfold wfSpans; decide)
    (by rw [num_spans_to_keep_of_one witCfg rfl]; decide)

/-- Witness for C5 at a concrete input. -/
theorem C5_predicted_antecedent_range_witness :
    ∃ od : OutputDict,
      forward witCfg witScN witDoc false none [] false false = .output od ∧
      ∀ i, i < od.predicted_antecedents.length →
        -1 ≤ od.predicted_antecedents.getD i 0 ∧
        od.predicted_antecedents.getD i 0 < (i : Int) ∧
        od.predicted_antecedents.getD i 0 <
          (min witCfg.maxAntecedents
            (num_spans_to_keep witCfg witDoc.docLen) : Int) ∧
        (i < (top_span_indices witCfg witScN witDoc).length →
          od.predicted_antecedents.getD i 0 <
            (min witCfg.maxAntecedents
              (top_span_indices witCfg witScN witDoc).length : Int)) ∧
        (i = 0 → od.predicted_antecedents.getD i 0 = -1) :=
  C5_predicted_antecedent_range witCfg witScN witDoc false

/-- Witness for C6 at a concrete input. -/
theorem C6_kept_span_count_witness :
    (top_span_indices witCfg witScN witDoc).length =
      min (num_spans_to_keep witCfg witDoc.docLen) (numValidSpans witDoc.spans) ∧
    ∃ od : OutputDict,
      forward witCfg witScN witDoc false none [] false false = .output od ∧
      od.top_spans.length =
        min (num_spans_to_keep witCfg witDoc.docLen)
          (numValidSpans witDoc.spans) ∧
      od.predicted_antecedents.length =
        min (num_spans_to_keep witCfg witDoc.docLen)
          (numValidSpans witDoc.spans) :=
  C6_kept_span_count witCfg witScN witDoc false (by decide)
    (by rw [num_spans_to_keep_of_one witCfg rfl]; decide)

/-- Witness for C7 at a concrete input. -/
theorem C7_window_width_witness :
    ∃ od : OutputDict,
      forward witCfg witScN witDoc false none [] false false = .output od ∧
      od.antecedent_indices.length = (top_span_indices witCfg witScN witDoc).length ∧
      (∀ r ∈ od.antecedent_indices,
        r.length = min witCfg.maxAntecedents
          (top_span_indices witCfg witScN witDoc).length) ∧
      min witCfg.maxAntecedents (top_span_indices witCfg witScN witDoc).length ≤
        (top_span_indices witCfg witScN witDoc).length :=
  C7_window_width witCfg witScN witDoc false (by decide)
    (by rw [num_spans_to_keep_of_one witCfg rfl]; decide)

/-- Witness for C8 at a concrete input: the fresh call on the labelled
document carries a loss entry, matching its supplied labels. -/
theorem C8_loss_iff_labels_witness :
    (freshOutput witCfg witScN witDoc false).loss.isSome ↔
      witDoc.spanLabels.isSome :=
  C8_loss_iff_labels witCfg witScN witDoc false none [] _
    (fun od₀ h => by cases h) (forward_fresh_eq witCfg witScN witDoc false)

/-- Witness for C9 at a concrete input: the cluster labelings
`[1, -1, 1, -1]` and `[7, -1, 7, -1]` induce the same partition and give the
same loss. -/
theorem C9_loss_relabel_invariance_witness :
    ∃ od1 od2 : OutputDict,
      forward witCfg witScN { witDoc with spanLabels := some [1, -1, 1, -1] }
        false none [] false false = .output od1 ∧
      forward witCfg witScN { witDoc with spanLabels := some [7, -1, 7, -1] }
        false none [] false false = .output od2 ∧
      od1.loss = od2.loss :=
  C9_loss_relabel_invariance witCfg witScN witDoc [1, -1, 1, -1] [7, -1, 7, -1]
    false (by unfold labelsBounded; decide) (by unfold labelsBounded; decide)
    (by decide) (by decide) (by decide) (by decide) (by decide)

/-- Witness for C10 at a concrete input. -/
theorem C10_clamp_is_pure_and_mask_preclamp_witness :
    (freshMid witCfg witScN witDoc).spansUsed = clampSpans witDoc.spans ∧
    (∀ i, i < witDoc.spans.length →
      (clampSpans witDoc.spans).getD i (0, 0) =
        (max (witDoc.spans.getD i (0, 0)).1 0,
         max (witDoc.spans.getD i (0, 0)).2 0)) ∧
    (∀ i, i < witDoc.spans.length →
      ((span_mask witDoc.spans).getD i false = true ↔
        0 ≤ (witDoc.spans.getD i (0, 0)).1)) ∧
    (∀ i, i < witDoc.spans.length → (witDoc.spans.getD i (0, 0)).1 < 0 →
      (span_mask witDoc.spans).getD i false = false ∧
      0 ≤ ((clampSpans witDoc.spans).getD i (0, 0)).1 ∧
      i ∉ top_span_indices witCfg witScN witDoc) :=
  C10_clamp_is_pure_and_mask_preclamp witCfg witScN witDoc

end ALCoref
